import Mathlib

/-!
Verification development for the fashion-linucb-api repository.

The definitions below are shallow embeddings of the TypeScript/JavaScript
source of the repository:

* `LinUCB` embeds `src/models/LinUCB.js`, which contains two variants of the
  model in one file: a plain JavaScript variant (lines 1-467) and a TypeScript
  variant (lines 468-977).  The TypeScript variant is the one imported by the
  enhanced API routes.  Real-number arithmetic of the source (IEEE doubles) is
  idealised as arithmetic over the real numbers; the 1e-9 rounding allowance
  of the specification absorbs this idealisation.
* `FeatureMap` embeds `src/utils/featureMapping.js`.
* `Guard` embeds `src/middleware/enhancedDuplicateDetection.ts`.
* `Store` embeds the session-history helpers of `src/utils/caching.ts`
  (the diversity-manager half of that file) together with the
  `RecommendationCache` class of the same file, and `Rec` embeds the
  data flow of the `GET /recommend/:sessionId` route of the enhanced
  route file.
-/

open Matrix

namespace LinUCB

/-- Configuration constants of LINUCB_CONFIG (src/models/LinUCB.js lines 22-29
and 488-495; the two variants agree on these values). -/
abbrev FEATURE_DIMENSIONS : ℕ := 26

/-- Default exploration parameter alpha = 0.2. -/
noncomputable def DEFAULT_ALPHA : ℝ := 0.2

/-- Regularization lambda = 0.01. -/
noncomputable def REGULARIZATION_LAMBDA : ℝ := 0.01

/-- Minimal alpha reachable through adaptive decay. -/
noncomputable def MIN_ALPHA : ℝ := 0.05

/-- Adaptive alpha decay factor. -/
noncomputable def ADAPTIVE_ALPHA_DECAY : ℝ := 0.95

/-- State of a LinUCBModel instance: exploration parameter alpha, the
confidence matrix A, the accumulator vector b, the preference vector theta
and the interaction counter.  The source keeps b and theta as d-by-1 column
matrices; we keep them as vectors `Fin d → ℝ`. -/
structure Model (d : ℕ) where
  alpha : ℝ
  A : Matrix (Fin d) (Fin d) ℝ
  b : Fin d → ℝ
  theta : Fin d → ℝ
  totalInteractions : ℕ

/-- TypeScript-variant `initialize` (src/models/LinUCB.js lines 578-595):
theta = 0, A = identity (no regularization scaling), b = 0. -/
noncomputable def initializeTS (d : ℕ) (alpha : ℝ) : Model d :=
  { alpha := alpha
    A := 1
    b := 0
    theta := 0
    totalInteractions := 0 }

/-- JavaScript-variant `initialize` (src/models/LinUCB.js lines 48-66):
theta = 0, A = identity scaled by (1 + REGULARIZATION_LAMBDA), b = 0. -/
noncomputable def initializeJS (d : ℕ) (alpha : ℝ) : Model d :=
  { alpha := alpha
    A := (1 + REGULARIZATION_LAMBDA) • 1
    b := 0
    theta := 0
    totalInteractions := 0 }

/-- Expected reward θᵀx (src/models/LinUCB.js line 610). -/
noncomputable def expectedReward {d : ℕ} (m : Model d) (x : Fin d → ℝ) : ℝ :=
  m.theta ⬝ᵥ x

/-- Confidence bound α·√(max 0 (xᵀA⁻¹x)) (src/models/LinUCB.js lines
614-620).  The source computes A⁻¹ with ml-matrix `inverse`, which succeeds
whenever A is invertible; every reachable A is positive definite, so the
regularized-retry catch branch of the source is dead on reachable states and
is not modelled. -/
noncomputable def confidenceBound {d : ℕ} (m : Model d) (x : Fin d → ℝ) : ℝ :=
  m.alpha * Real.sqrt (max 0 (x ⬝ᵥ (m.A⁻¹ *ᵥ x)))

/-- UCB score = expected reward + confidence bound (src/models/LinUCB.js
line 639). -/
noncomputable def calculateUCBScore {d : ℕ} (m : Model d) (x : Fin d → ℝ) : ℝ :=
  expectedReward m x + confidenceBound m x

/-- TypeScript-variant `updateModel` (src/models/LinUCB.js lines 669-738):
A ← A + xxᵀ, b ← b + r·x, θ ← A⁻¹b, interaction counter incremented; the
TypeScript variant performs no input validation and does not touch alpha. -/
noncomputable def updateModel {d : ℕ} (m : Model d) (x : Fin d → ℝ) (r : ℝ) :
    Model d :=
  let A := m.A + Matrix.vecMulVec x x
  let b := m.b + r • x
  { alpha := m.alpha
    A := A
    b := b
    theta := A⁻¹ *ᵥ b
    totalInteractions := m.totalInteractions + 1 }

/-- A vector is binary when every entry is 0 or 1. -/
def IsBinaryVec {d : ℕ} (x : Fin d → ℝ) : Prop :=
  ∀ i, x i = 0 ∨ x i = 1

/-- Model states reachable in the enhanced routes: the route constructs
`new LinUCBModel(session.alpha, session.feature_dimensions)` with
session.alpha = DEFAULT_ALPHA (sessions are created with the default in the
enhanced route file) and replays stored interactions through `updateModel`
with binary product feature vectors. -/
inductive Reachable : Model FEATURE_DIMENSIONS → Prop
  | init : Reachable (initializeTS FEATURE_DIMENSIONS DEFAULT_ALPHA)
  | step (m : Model FEATURE_DIMENSIONS) (x : Fin FEATURE_DIMENSIONS → ℝ) (r : ℝ)
      (hm : Reachable m) (hx : IsBinaryVec x) : Reachable (updateModel m x r)

end LinUCB

namespace LinUCB

/-- The first standard basis vector, used as a concrete 26-dimensional binary
feature vector in witnesses and counterexamples. -/
noncomputable def e0 : Fin FEATURE_DIMENSIONS → ℝ := fun i => if i = 0 then 1 else 0

theorem e0_binary : IsBinaryVec e0 := by
  intro i
  unfold e0
  by_cases h : i = 0 <;> simp [h]

theorem e0_dot_e0 : e0 ⬝ᵥ e0 = 1 := by
  unfold e0 Matrix.dotProduct
  simp [Finset.sum_ite_eq]

end LinUCB

/-- C2: the claim asserts that every newly created LinUCB model starts with
A = I·(1 + λ).  This is false for the TypeScript variant, whose `initialize`
(src/models/LinUCB.js line 584) builds the plain identity matrix: its entry
(0,0) is 1, not 1 + 0.01. -/
theorem C2_counterexample :
    ¬ (LinUCB.initializeTS LinUCB.FEATURE_DIMENSIONS LinUCB.DEFAULT_ALPHA).A =
      (1 + LinUCB.REGULARIZATION_LAMBDA) • (1 : Matrix (Fin 26) (Fin 26) ℝ) := by
  intro h
  have h00 := congrFun (congrFun h 0) 0
  simp only [LinUCB.initializeTS, LinUCB.REGULARIZATION_LAMBDA, Matrix.smul_apply,
    Matrix.one_apply_eq, smul_eq_mul] at h00
  norm_num at h00

/-- C2 (amended): a newly created JS-variant model starts with
A = I·(1 + λ), b = 0, θ = 0 (λ = 0.01, D = 26), while a newly created
TS-variant model starts with A = I (without the regularization scaling),
b = 0, θ = 0. -/
theorem C2_init_values (alpha : ℝ) :
    (LinUCB.initializeJS LinUCB.FEATURE_DIMENSIONS alpha).A =
        (1 + LinUCB.REGULARIZATION_LAMBDA) • (1 : Matrix (Fin 26) (Fin 26) ℝ) ∧
      (LinUCB.initializeJS LinUCB.FEATURE_DIMENSIONS alpha).b = 0 ∧
      (LinUCB.initializeJS LinUCB.FEATURE_DIMENSIONS alpha).theta = 0 ∧
      (LinUCB.initializeTS LinUCB.FEATURE_DIMENSIONS alpha).A =
        (1 : Matrix (Fin 26) (Fin 26) ℝ) ∧
      (LinUCB.initializeTS LinUCB.FEATURE_DIMENSIONS alpha).b = 0 ∧
      (LinUCB.initializeTS LinUCB.FEATURE_DIMENSIONS alpha).theta = 0 := by
  refine ⟨rfl, rfl, rfl, rfl, rfl, rfl⟩

namespace LinUCB

/-- A rank-one matrix xxᵀ applied to a vector w gives (x·w)·x. -/
theorem vecMulVec_mulVec_eq {d : ℕ} (x w : Fin d → ℝ) :
    Matrix.vecMulVec x x *ᵥ w = (x ⬝ᵥ w) • x := by
  funext i
  simp only [Matrix.mulVec, Matrix.vecMulVec_apply, Matrix.dotProduct, Pi.smul_apply,
    smul_eq_mul, Finset.sum_mul, Finset.mul_sum]
  exact Finset.sum_congr rfl fun j _ => by ring

/-- The sandwich V·M·V of a rank-one matrix V = xxᵀ around any square matrix M
collapses to the quadratic form xᵀMx times V. -/
theorem vecMulVec_mul_mul_vecMulVec {d : ℕ} (x : Fin d → ℝ)
    (M : Matrix (Fin d) (Fin d) ℝ) :
    Matrix.vecMulVec x x * M * Matrix.vecMulVec x x =
      (x ⬝ᵥ (M *ᵥ x)) • Matrix.vecMulVec x x := by
  funext i j
  simp only [Matrix.mul_apply, Matrix.vecMulVec_apply, Matrix.smul_apply, smul_eq_mul,
    Matrix.dotProduct, Matrix.mulVec, Finset.sum_mul, Finset.mul_sum]
  rw [Finset.sum_comm]
  refine Finset.sum_congr rfl fun k _ => ?_
  refine Finset.sum_congr rfl fun l _ => by ring

/-- The rank-one matrix xxᵀ is positive semidefinite over the reals. -/
theorem vecMulVec_posSemidef {d : ℕ} (x : Fin d → ℝ) :
    (Matrix.vecMulVec x x).PosSemidef := by
  constructor
  · funext i j
    simp [Matrix.conjTranspose_apply, Matrix.vecMulVec_apply, mul_comm]
  · intro y
    rw [vecMulVec_mulVec_eq]
    simp only [star_trivial, Matrix.dotProduct_smul, smul_eq_mul]
    rw [Matrix.dotProduct_comm]
    exact mul_self_nonneg _

end LinUCB

namespace LinUCB

/-- Transpose of a real symmetric positive-definite matrix equals itself. -/
theorem transpose_eq_of_posDef {d : ℕ} {A : Matrix (Fin d) (Fin d) ℝ}
    (hA : A.PosDef) : Aᵀ = A := by
  funext i j
  have h := congrFun (congrFun hA.isHermitian.eq i) j
  simpa [Matrix.conjTranspose_apply] using h

/-- Moving a real symmetric matrix across a dot product. -/
theorem dotProduct_mulVec_symm {d : ℕ} {M : Matrix (Fin d) (Fin d) ℝ}
    (hM : Mᵀ = M) (v w : Fin d → ℝ) :
    v ⬝ᵥ (M *ᵥ w) = (M *ᵥ v) ⬝ᵥ w := by
  rw [Matrix.dotProduct_mulVec, ← Matrix.mulVec_transpose, hM]

/-- Sherman-Morrison: explicit inverse of a rank-one update A + xxᵀ of an
invertible matrix A, provided 1 + xᵀA⁻¹x does not vanish. -/
theorem sherman_morrison {d : ℕ} {A : Matrix (Fin d) (Fin d) ℝ}
    (hA : IsUnit A.det) (x : Fin d → ℝ)
    (hs : 1 + x ⬝ᵥ (A⁻¹ *ᵥ x) ≠ 0) :
    (A + Matrix.vecMulVec x x)⁻¹ =
      A⁻¹ - (1 + x ⬝ᵥ (A⁻¹ *ᵥ x))⁻¹ •
        (A⁻¹ * Matrix.vecMulVec x x * A⁻¹) := by
  set V := Matrix.vecMulVec x x with hV
  set s := x ⬝ᵥ (A⁻¹ *ᵥ x) with hsdef
  set c := (1 + s)⁻¹ with hc
  apply Matrix.inv_eq_right_inv
  have hAAinv : A * A⁻¹ = 1 := Matrix.mul_nonsing_inv _ hA
  have hVAV : V * A⁻¹ * V = s • V := vecMulVec_mul_mul_vecMulVec x A⁻¹
  have step1 : (A + V) * (A⁻¹ - c • (A⁻¹ * V * A⁻¹)) =
      A * A⁻¹ + V * A⁻¹ - c • (A * (A⁻¹ * V * A⁻¹)) - c • (V * (A⁻¹ * V * A⁻¹)) := by
    rw [mul_sub, add_mul, add_mul, mul_smul_comm, mul_smul_comm]
    abel
  rw [step1, hAAinv]
  have hA1 : A * (A⁻¹ * V * A⁻¹) = V * A⁻¹ := by
    rw [← mul_assoc, ← mul_assoc, hAAinv, one_mul]
  have hA2 : V * (A⁻¹ * V * A⁻¹) = s • (V * A⁻¹) := by
    rw [← mul_assoc, ← mul_assoc, mul_assoc V A⁻¹ V, ← mul_assoc, hVAV, Matrix.smul_mul]
  rw [hA1, hA2, smul_smul]
  have hcollect : c • (V * A⁻¹) + (c * s) • (V * A⁻¹) = V * A⁻¹ := by
    rw [← add_smul]
    have : c + c * s = 1 := by
      rw [hc]
      field_simp
    rw [this, one_smul]
  calc 1 + V * A⁻¹ - c • (V * A⁻¹) - (c * s) • (V * A⁻¹)
      = 1 + V * A⁻¹ - (c • (V * A⁻¹) + (c * s) • (V * A⁻¹)) := by abel
    _ = 1 := by rw [hcollect]; abel

end LinUCB

namespace LinUCB

/-- The quadratic form of the inverse of a positive-definite matrix is
nonnegative. -/
theorem quad_inv_nonneg {d : ℕ} {A : Matrix (Fin d) (Fin d) ℝ}
    (hA : A.PosDef) (x : Fin d → ℝ) : 0 ≤ x ⬝ᵥ (A⁻¹ *ᵥ x) := by
  have h := hA.inv.posSemidef.2 x
  simpa [star_trivial] using h

/-- Applying the inverse of the rank-one update to the update vector rescales
A⁻¹x by 1/(1 + s), where s = xᵀA⁻¹x. -/
theorem inv_add_vecMulVec_mulVec {d : ℕ} {A : Matrix (Fin d) (Fin d) ℝ}
    (hA : A.PosDef) (x : Fin d → ℝ) :
    (A + Matrix.vecMulVec x x)⁻¹ *ᵥ x =
      (1 + x ⬝ᵥ (A⁻¹ *ᵥ x))⁻¹ • (A⁻¹ *ᵥ x) := by
  have hs0 : 0 ≤ x ⬝ᵥ (A⁻¹ *ᵥ x) := quad_inv_nonneg hA x
  have hs : 1 + x ⬝ᵥ (A⁻¹ *ᵥ x) ≠ 0 := by positivity
  have hdet : IsUnit A.det := isUnit_iff_ne_zero.2 hA.det_pos.ne'
  rw [sherman_morrison hdet x hs, Matrix.sub_mulVec, Matrix.smul_mulVec_assoc]
  set s := x ⬝ᵥ (A⁻¹ *ᵥ x) with hsdef
  have hmv : (A⁻¹ * Matrix.vecMulVec x x * A⁻¹) *ᵥ x = s • (A⁻¹ *ᵥ x) := by
    rw [← Matrix.mulVec_mulVec, ← Matrix.mulVec_mulVec, vecMulVec_mulVec_eq,
      Matrix.mulVec_smul]
  rw [hmv, smul_smul]
  have hfield : (1:ℝ) - (1 + s)⁻¹ * s = (1 + s)⁻¹ := by
    field_simp
  calc A⁻¹ *ᵥ x - ((1 + s)⁻¹ * s) • (A⁻¹ *ᵥ x)
      = ((1:ℝ) - (1 + s)⁻¹ * s) • (A⁻¹ *ᵥ x) := by
        rw [sub_smul, one_smul]
    _ = (1 + s)⁻¹ • (A⁻¹ *ᵥ x) := by rw [hfield]

/-- Invariants maintained along reachable model states: A stays positive
definite, theta stays equal to A⁻¹b, and alpha stays at its default. -/
theorem reachable_inv (m : Model FEATURE_DIMENSIONS) (hm : Reachable m) :
    m.A.PosDef ∧ m.theta = m.A⁻¹ *ᵥ m.b ∧ m.alpha = DEFAULT_ALPHA := by
  induction hm with
  | init =>
      refine ⟨Matrix.PosDef.one, ?_, rfl⟩
      rw [show (initializeTS FEATURE_DIMENSIONS DEFAULT_ALPHA).b = 0 from rfl,
        Matrix.mulVec_zero]
      rfl
  | step m x r hmr hx ih =>
      refine ⟨?_, ?_, ?_⟩
      · simp only [updateModel]
        exact ih.1.add_posSemidef (vecMulVec_posSemidef x)
      · simp only [updateModel]
      · simp only [updateModel]
        exact ih.2.2

end LinUCB

namespace LinUCB

/-- Core inequality behind the amended monotonicity claim: if the observed
reward r is at least the current UCB value t + α√s, then the updated UCB
value (t + r·s)/(1 + s) + α·√(s/(1 + s)) does not drop below the current
one. -/
theorem ucb_key_ineq (t r α s : ℝ) (hs : 0 ≤ s) (hα : 0 ≤ α)
    (hr : t + α * Real.sqrt s ≤ r) :
    t + α * Real.sqrt s ≤ (t + r * s) / (1 + s) + α * Real.sqrt (s / (1 + s)) := by
  have h1s : (0:ℝ) < 1 + s := by linarith
  have hu : 0 ≤ Real.sqrt s := Real.sqrt_nonneg s
  have hv0 : 0 < Real.sqrt (1 + s) := Real.sqrt_pos.2 h1s
  have hu2 : Real.sqrt s ^ 2 = s := Real.sq_sqrt hs
  have hv2 : Real.sqrt (1 + s) ^ 2 = 1 + s := Real.sq_sqrt h1s.le
  have hv1 : 1 ≤ Real.sqrt (1 + s) := by nlinarith [hv0, hv2, hs]
  set u := Real.sqrt s
  set v := Real.sqrt (1 + s)
  have hdiv : Real.sqrt (s / (1 + s)) = u / v := Real.sqrt_div hs (1 + s)
  have huv : u / v = u * v / (1 + s) := by
    rw [← hv2]
    field_simp
    ring
  rw [hdiv, huv, mul_div_assoc' α (u * v) (1 + s), div_add_div_same, le_div_iff₀ h1s]
  nlinarith [mul_nonneg hs (sub_nonneg.2 hr), mul_nonneg (mul_nonneg hα hu) (sub_nonneg.2 hv1)]

end LinUCB

namespace LinUCB

/-- Transpose of the rank-one matrix xxᵀ is itself. -/
theorem vecMulVec_transpose {d : ℕ} (x : Fin d → ℝ) :
    (Matrix.vecMulVec x x)ᵀ = Matrix.vecMulVec x x := by
  funext i j
  simp [Matrix.transpose_apply, Matrix.vecMulVec_apply, mul_comm]

/-- Quadratic form of the updated inverse: after A ← A + xxᵀ the value of
xᵀA⁻¹x becomes s/(1+s). -/
theorem updated_quad {d : ℕ} (m : Model d) (x : Fin d → ℝ) (r : ℝ)
    (hPD : m.A.PosDef) :
    x ⬝ᵥ ((updateModel m x r).A⁻¹ *ᵥ x) =
      (x ⬝ᵥ (m.A⁻¹ *ᵥ x)) / (1 + x ⬝ᵥ (m.A⁻¹ *ᵥ x)) := by
  have hAx : (updateModel m x r).A⁻¹ *ᵥ x =
      (1 + x ⬝ᵥ (m.A⁻¹ *ᵥ x))⁻¹ • (m.A⁻¹ *ᵥ x) := by
    simp only [updateModel]
    exact inv_add_vecMulVec_mulVec hPD x
  rw [hAx, Matrix.dotProduct_smul, smul_eq_mul, div_eq_mul_inv, mul_comm]

/-- Expected reward after the update: θ1ᵀx = (θᵀx + r·s)/(1+s) where
s = xᵀA⁻¹x, assuming θ = A⁻¹b and A positive definite. -/
theorem updated_expected {d : ℕ} (m : Model d) (x : Fin d → ℝ) (r : ℝ)
    (hPD : m.A.PosDef) (hTheta : m.theta = m.A⁻¹ *ᵥ m.b) :
    (updateModel m x r).theta ⬝ᵥ x =
      (m.theta ⬝ᵥ x + r * (x ⬝ᵥ (m.A⁻¹ *ᵥ x))) / (1 + x ⬝ᵥ (m.A⁻¹ *ᵥ x)) := by
  set s := x ⬝ᵥ (m.A⁻¹ *ᵥ x) with hsdef
  have hsymA : m.Aᵀ = m.A := transpose_eq_of_posDef hPD
  have hsymInvA : (m.A⁻¹)ᵀ = m.A⁻¹ := by
    rw [Matrix.transpose_nonsing_inv, hsymA]
  have hsymA1 : ((updateModel m x r).A)ᵀ = (updateModel m x r).A := by
    simp only [updateModel]
    rw [Matrix.transpose_add, hsymA, vecMulVec_transpose]
  have hsymInvA1 : ((updateModel m x r).A⁻¹)ᵀ = (updateModel m x r).A⁻¹ := by
    rw [Matrix.transpose_nonsing_inv, hsymA1]
  have hAx : (updateModel m x r).A⁻¹ *ᵥ x = (1 + s)⁻¹ • (m.A⁻¹ *ᵥ x) := by
    simp only [updateModel]
    exact inv_add_vecMulVec_mulVec hPD x
  have htheta1 : (updateModel m x r).theta =
      (updateModel m x r).A⁻¹ *ᵥ (m.b + r • x) := by
    simp only [updateModel]
  rw [htheta1, ← dotProduct_mulVec_symm hsymInvA1 (m.b + r • x) x, hAx,
    Matrix.dotProduct_smul, smul_eq_mul, Matrix.add_dotProduct,
    Matrix.smul_dotProduct, smul_eq_mul]
  have hbx : m.b ⬝ᵥ (m.A⁻¹ *ᵥ x) = m.theta ⬝ᵥ x := by
    rw [dotProduct_mulVec_symm hsymInvA m.b x, hTheta]
  rw [hbx, div_eq_mul_inv, mul_comm]

/-- C1 (amended): for every reachable model state and binary feature vector x,
an update with a reward r that is at least the current UCB score of x cannot
decrease the UCB score of x. -/
theorem C1_ucb_monotone (m : Model FEATURE_DIMENSIONS)
    (x : Fin FEATURE_DIMENSIONS → ℝ) (r : ℝ)
    (hm : Reachable m) (hx : IsBinaryVec x)
    (hr : calculateUCBScore m x ≤ r) :
    calculateUCBScore m x ≤ calculateUCBScore (updateModel m x r) x := by
  obtain ⟨hPD, hTheta, hAlpha⟩ := reachable_inv m hm
  set s := x ⬝ᵥ (m.A⁻¹ *ᵥ x) with hsdef
  have hs : 0 ≤ s := quad_inv_nonneg hPD x
  have hα : 0 ≤ m.alpha := by
    rw [hAlpha]
    unfold DEFAULT_ALPHA
    norm_num
  have h1s : (0:ℝ) < 1 + s := by linarith
  have hscore : calculateUCBScore m x = m.theta ⬝ᵥ x + m.alpha * Real.sqrt s := by
    unfold calculateUCBScore expectedReward confidenceBound
    rw [← hsdef, max_eq_right hs]
  have halpha1 : (updateModel m x r).alpha = m.alpha := by
    simp only [updateModel]
  have hscore1 : calculateUCBScore (updateModel m x r) x =
      (m.theta ⬝ᵥ x + r * s) / (1 + s) + m.alpha * Real.sqrt (s / (1 + s)) := by
    unfold calculateUCBScore expectedReward confidenceBound
    rw [halpha1, updated_quad m x r hPD, updated_expected m x r hPD hTheta,
      ← hsdef, max_eq_right (div_nonneg hs h1s.le)]
  rw [hscore, hscore1]
  exact ucb_key_ineq (m.theta ⬝ᵥ x) r m.alpha s hs hα (by rw [hscore] at hr; exact hr)

end LinUCB

namespace LinUCB

/-- UCB score of the first basis vector on a fresh TS model evaluates to
alpha, because theta = 0, A = I and e0ᵀe0 = 1. -/
theorem ucb_init_e0 :
    calculateUCBScore (initializeTS FEATURE_DIMENSIONS DEFAULT_ALPHA) e0 =
      DEFAULT_ALPHA := by
  unfold calculateUCBScore expectedReward confidenceBound
  simp only [initializeTS]
  rw [inv_one, Matrix.one_mulVec, e0_dot_e0, Matrix.zero_dotProduct,
    max_eq_right (by norm_num : (0:ℝ) ≤ 1), Real.sqrt_one, mul_one, zero_add]

end LinUCB

/-- C1 (witness): at the fresh reachable model, the binary vector e0 and the
reward 1 (which is at least the current UCB score 0.2), the amended
monotonicity theorem applies. -/
theorem C1_witness :
    LinUCB.IsBinaryVec LinUCB.e0 ∧
    LinUCB.calculateUCBScore
      (LinUCB.initializeTS LinUCB.FEATURE_DIMENSIONS LinUCB.DEFAULT_ALPHA)
      LinUCB.e0 ≤ 1 ∧
    LinUCB.calculateUCBScore
        (LinUCB.initializeTS LinUCB.FEATURE_DIMENSIONS LinUCB.DEFAULT_ALPHA)
        LinUCB.e0 ≤
      LinUCB.calculateUCBScore
        (LinUCB.updateModel
          (LinUCB.initializeTS LinUCB.FEATURE_DIMENSIONS LinUCB.DEFAULT_ALPHA)
          LinUCB.e0 1)
        LinUCB.e0 := by
  have hle : LinUCB.calculateUCBScore
      (LinUCB.initializeTS LinUCB.FEATURE_DIMENSIONS LinUCB.DEFAULT_ALPHA)
      LinUCB.e0 ≤ 1 := by
    rw [LinUCB.ucb_init_e0]
    unfold LinUCB.DEFAULT_ALPHA
    norm_num
  exact ⟨LinUCB.e0_binary, hle,
    LinUCB.C1_ucb_monotone _ _ _ LinUCB.Reachable.init LinUCB.e0_binary hle⟩

/-- C1 (counterexample): the claim as stated is false.  Take the reachable
state after two love rewards (r = 2) on the binary vector e0 and update once
more with the positive reward r = 1: the UCB score of e0 after the update
(5/4 + 0.2·√(1/4) = 1.35) is strictly below the score before the update
(4/3 + 0.2·√(1/3) ≈ 1.4488) by far more than the 1e-9 rounding allowance. -/
theorem C1_counterexample :
    LinUCB.Reachable
      (LinUCB.updateModel
        (LinUCB.updateModel
          (LinUCB.initializeTS LinUCB.FEATURE_DIMENSIONS LinUCB.DEFAULT_ALPHA)
          LinUCB.e0 2) LinUCB.e0 2) ∧
    LinUCB.IsBinaryVec LinUCB.e0 ∧ (0:ℝ) < 1 ∧
    LinUCB.calculateUCBScore
        (LinUCB.updateModel
          (LinUCB.updateModel
            (LinUCB.updateModel
              (LinUCB.initializeTS LinUCB.FEATURE_DIMENSIONS LinUCB.DEFAULT_ALPHA)
              LinUCB.e0 2) LinUCB.e0 2) LinUCB.e0 1)
        LinUCB.e0 <
      LinUCB.calculateUCBScore
        (LinUCB.updateModel
          (LinUCB.updateModel
            (LinUCB.initializeTS LinUCB.FEATURE_DIMENSIONS LinUCB.DEFAULT_ALPHA)
            LinUCB.e0 2) LinUCB.e0 2)
        LinUCB.e0 - 1e-9 := by
  set m0 := LinUCB.initializeTS LinUCB.FEATURE_DIMENSIONS LinUCB.DEFAULT_ALPHA with hm0
  set m1 := LinUCB.updateModel m0 LinUCB.e0 2 with hm1
  set m2 := LinUCB.updateModel m1 LinUCB.e0 2 with hm2
  have R1 : LinUCB.Reachable m1 :=
    LinUCB.Reachable.step _ _ _ LinUCB.Reachable.init LinUCB.e0_binary
  have R2 : LinUCB.Reachable m2 :=
    LinUCB.Reachable.step _ _ _ R1 LinUCB.e0_binary
  have inv0 := LinUCB.reachable_inv m0 LinUCB.Reachable.init
  have inv1 := LinUCB.reachable_inv m1 R1
  have inv2 := LinUCB.reachable_inv m2 R2
  have hs0 : LinUCB.e0 ⬝ᵥ (m0.A⁻¹ *ᵥ LinUCB.e0) = 1 := by
    rw [hm0]
    simp only [LinUCB.initializeTS]
    rw [inv_one, Matrix.one_mulVec, LinUCB.e0_dot_e0]
  have ht0 : m0.theta ⬝ᵥ LinUCB.e0 = 0 := by
    rw [hm0]
    simp only [LinUCB.initializeTS]
    rw [Matrix.zero_dotProduct]
  have hs1 : LinUCB.e0 ⬝ᵥ (m1.A⁻¹ *ᵥ LinUCB.e0) = 1/2 := by
    rw [hm1, LinUCB.updated_quad m0 LinUCB.e0 2 inv0.1, hs0]
    norm_num
  have ht1 : m1.theta ⬝ᵥ LinUCB.e0 = 1 := by
    rw [hm1, LinUCB.updated_expected m0 LinUCB.e0 2 inv0.1 inv0.2.1, hs0, ht0]
    norm_num
  have hs2 : LinUCB.e0 ⬝ᵥ (m2.A⁻¹ *ᵥ LinUCB.e0) = 1/3 := by
    rw [hm2, LinUCB.updated_quad m1 LinUCB.e0 2 inv1.1, hs1]
    norm_num
  have ht2 : m2.theta ⬝ᵥ LinUCB.e0 = 4/3 := by
    rw [hm2, LinUCB.updated_expected m1 LinUCB.e0 2 inv1.1 inv1.2.1, hs1, ht1]
    norm_num
  have hs3 : LinUCB.e0 ⬝ᵥ ((LinUCB.updateModel m2 LinUCB.e0 1).A⁻¹ *ᵥ LinUCB.e0) = 1/4 := by
    rw [LinUCB.updated_quad m2 LinUCB.e0 1 inv2.1, hs2]
    norm_num
  have ht3 : (LinUCB.updateModel m2 LinUCB.e0 1).theta ⬝ᵥ LinUCB.e0 = 5/4 := by
    rw [LinUCB.updated_expected m2 LinUCB.e0 1 inv2.1 inv2.2.1, hs2, ht2]
    norm_num
  have hal3 : (LinUCB.updateModel m2 LinUCB.e0 1).alpha = LinUCB.DEFAULT_ALPHA := by
    simp only [LinUCB.updateModel]
    exact inv2.2.2
  have hscore2 : LinUCB.calculateUCBScore m2 LinUCB.e0 =
      4/3 + LinUCB.DEFAULT_ALPHA * Real.sqrt (1/3) := by
    unfold LinUCB.calculateUCBScore LinUCB.expectedReward LinUCB.confidenceBound
    rw [ht2, hs2, inv2.2.2, max_eq_right (by norm_num : (0:ℝ) ≤ 1/3)]
  have hsqrt4 : Real.sqrt (1/4 : ℝ) = 1/2 := by
    rw [show (1/4 : ℝ) = (1/2)^2 by norm_num, Real.sqrt_sq (by norm_num : (0:ℝ) ≤ 1/2)]
  have hscore3 : LinUCB.calculateUCBScore (LinUCB.updateModel m2 LinUCB.e0 1) LinUCB.e0 =
      5/4 + LinUCB.DEFAULT_ALPHA * (1/2) := by
    unfold LinUCB.calculateUCBScore LinUCB.expectedReward LinUCB.confidenceBound
    rw [ht3, hs3, hal3, max_eq_right (by norm_num : (0:ℝ) ≤ 1/4), hsqrt4]
  refine ⟨R2, LinUCB.e0_binary, by norm_num, ?_⟩
  rw [hscore2, hscore3]
  unfold LinUCB.DEFAULT_ALPHA
  have hsq := Real.sq_sqrt (show (0:ℝ) ≤ 1/3 by norm_num)
  have hnn := Real.sqrt_nonneg (1/3 : ℝ)
  nlinarith [hsq, hnn, Real.le_sqrt (show (0:ℝ) ≤ 0.5 by norm_num)
    (show (0:ℝ) ≤ 1/3 by norm_num) |>.2 (by norm_num)]

namespace FeatureMap

/-- Feature vector length (src/utils/featureMapping.js line 16). -/
abbrev FEATURE_SIZE : ℕ := 26

/-- Category vocabulary, positions 0-4 (featureMapping.js lines 19-25). -/
def CATEGORIES : List String := ["Dresses", "Tops", "Bottoms", "Outerwear", "Swimwear"]

/-- Color vocabulary, positions 5-12 (featureMapping.js lines 28-37). -/
def COLORS : List String := ["Black", "White", "Blue", "Red", "Green", "Pink", "Brown", "Grey"]

/-- Occasion vocabulary, positions 13-16 (featureMapping.js lines 40-45). -/
def OCCASIONS : List String := ["Casual", "Work", "Party", "Formal"]

/-- Season vocabulary, positions 17-20 (featureMapping.js lines 48-53). -/
def SEASONS : List String := ["Spring", "Summer", "Fall", "Winter"]

/-- Style vocabulary, positions 21-25 (featureMapping.js lines 56-62). -/
def STYLES : List String := ["Trendy", "Classic", "Minimalist", "Boho", "Athletic"]

/-- Product record as consumed by extractFeatures: each attribute may be
missing (None models a missing or non-string JS field). -/
structure Product where
  category_main : Option String := none
  product_type : Option String := none
  primary_color : Option String := none
  occasion_primary : Option String := none
  formality_level : Option String := none
  season_primary : Option String := none
  style_category : Option String := none
  brand_style : Option String := none

/-- ASCII lowercasing of one character, an executable rendering of the
toLowerCase call of the source (catalog values are ASCII). -/
def lowerChar (c : Char) : Char :=
  if 'A' ≤ c ∧ c ≤ 'Z' then Char.ofNat (c.toNat + 32) else c

/-- Whitespace trimming on the character list of a string, an executable
rendering of the trim call of the source. -/
def trimChars (cs : List Char) : List Char :=
  ((cs.dropWhile Char.isWhitespace).reverse.dropWhile Char.isWhitespace).reverse

/-- normalizeValue (featureMapping.js lines 108-111): missing values map to
the empty string, strings are lowercased and trimmed. -/
def normalizeValue : Option String → String
  | none => ""
  | some s => String.mk (trimChars (s.data.map lowerChar))

/-- mapCategory (featureMapping.js lines 118-138). -/
def mapCategory (p : Product) : String :=
  if normalizeValue p.category_main = "dresses" then "Dresses"
  else if normalizeValue p.category_main = "tops" then "Tops"
  else if normalizeValue p.category_main = "bottoms" then "Bottoms"
  else if normalizeValue p.category_main = "outerwear" then "Outerwear"
  else if normalizeValue p.category_main = "swimwear" then "Swimwear"
  else if normalizeValue p.product_type = "dress" then "Dresses"
  else if normalizeValue p.product_type = "top" ∨ normalizeValue p.product_type = "blouse" ∨
      normalizeValue p.product_type = "shirt" then "Tops"
  else if normalizeValue p.product_type = "bottom" ∨ normalizeValue p.product_type = "jeans" ∨
      normalizeValue p.product_type = "pants" ∨ normalizeValue p.product_type = "skirt" then
    "Bottoms"
  else if normalizeValue p.product_type = "outerwear" ∨ normalizeValue p.product_type = "coat" ∨
      normalizeValue p.product_type = "jacket" then "Outerwear"
  else if normalizeValue p.product_type = "swimwear" ∨ normalizeValue p.product_type = "bikini" ∨
      normalizeValue p.product_type = "swimsuit" then "Swimwear"
  else "Tops"

/-- colorMap object literal of mapColor (featureMapping.js lines 149-167),
rendered as an association list in source order. -/
def colorMap : List (String × String) :=
  [("black", "Black"), ("white", "White"), ("blue", "Blue"), ("red", "Red"),
   ("green", "Green"), ("pink", "Pink"), ("brown", "Brown"), ("grey", "Grey"),
   ("gray", "Grey"), ("beige", "Brown"), ("navy", "Blue"), ("burgundy", "Red"),
   ("olive", "Green"), ("maroon", "Red"), ("cream", "White"), ("ivory", "White"),
   ("tan", "Brown")]

/-- Result of a JavaScript bracket lookup on a plain object literal: a
declared own property (in these maps always a nonempty string), a truthy
non-string value inherited from Object.prototype, or undefined.  The keys
are lowercased before the lookup, so the only reachable inherited
properties are the two Object.prototype names without an upper-case
letter. -/
inductive JsVal where
  | str (s : String)
  | protoJunk
  | undef
deriving DecidableEq

/-- Object.prototype property names that survive toLowerCase unchanged
(constructor and the __proto__ accessor; every other inherited name,
e.g. hasOwnProperty or valueOf, contains an upper-case letter and is
unreachable after normalization). -/
def protoKeys : List String := ["constructor", "__proto__"]

/-- Bracket lookup obj[key] on an object literal: the declared value if
the key is an own property, the inherited value for an Object.prototype
name, undefined otherwise. -/
def objLookup (m : List (String × String)) (key : String) : JsVal :=
  match m.lookup key with
  | some v => JsVal.str v
  | none => if key ∈ protoKeys then JsVal.protoJunk else JsVal.undef

/-- JavaScript truthiness of such a value; null is identified with
undefined (both falsy, both discarded downstream). -/
def JsVal.truthy : JsVal → Bool
  | JsVal.str s => !(s == "")
  | JsVal.protoJunk => true
  | JsVal.undef => false

/-- mapColor (featureMapping.js lines 145-170): colorMap[primaryColor] || null;
an inherited prototype value is truthy and is returned as-is. -/
def mapColor (p : Product) : JsVal :=
  if (objLookup colorMap (normalizeValue p.primary_color)).truthy then
    objLookup colorMap (normalizeValue p.primary_color)
  else JsVal.undef

/-- mapOccasion (featureMapping.js lines 177-194). -/
def mapOccasion (p : Product) : String :=
  if normalizeValue p.occasion_primary = "casual" then "Casual"
  else if normalizeValue p.occasion_primary = "work" ∨ normalizeValue p.occasion_primary = "business" then "Work"
  else if normalizeValue p.occasion_primary = "party" ∨ normalizeValue p.occasion_primary = "cocktail" then "Party"
  else if normalizeValue p.occasion_primary = "formal" ∨ normalizeValue p.occasion_primary = "evening" then "Formal"
  else if normalizeValue p.formality_level = "casual" then "Casual"
  else if normalizeValue p.formality_level = "formal" then "Formal"
  else if normalizeValue p.formality_level = "business" then "Work"
  else "Casual"

/-- seasonMap object literal of mapSeason (featureMapping.js lines 205-211). -/
def seasonMap : List (String × String) :=
  [("spring", "Spring"), ("summer", "Summer"), ("fall", "Fall"),
   ("autumn", "Fall"), ("winter", "Winter")]

/-- mapSeason (featureMapping.js lines 201-214): seasonMap[seasonPrimary]
|| null, with the same bracket semantics as mapColor. -/
def mapSeason (p : Product) : JsVal :=
  if (objLookup seasonMap (normalizeValue p.season_primary)).truthy then
    objLookup seasonMap (normalizeValue p.season_primary)
  else JsVal.undef

/-- styleMap object literal of mapStyle (featureMapping.js lines 226-239). -/
def styleMap : List (String × String) :=
  [("trendy", "Trendy"), ("classic", "Classic"), ("minimalist", "Minimalist"),
   ("bohemian", "Boho"), ("boho", "Boho"), ("athletic", "Athletic"),
   ("sporty", "Athletic"), ("casual", "Classic"), ("romantic", "Boho"),
   ("edgy", "Trendy"), ("contemporary", "Trendy"), ("european", "Classic")]

/-- Bracket lookup styleMap[s], shared by the two probes of mapStyle. -/
def styleMapLookup (s : String) : JsVal :=
  objLookup styleMap s

/-- mapStyle (featureMapping.js lines 221-247): if (styleMap[styleCategory])
return it; if (styleMap[brandStyle]) return it; default Classic.  An
inherited prototype value is truthy and escapes the lookup, so mapStyle
can return a non-string. -/
def mapStyle (p : Product) : JsVal :=
  if (styleMapLookup (normalizeValue p.style_category)).truthy then
    styleMapLookup (normalizeValue p.style_category)
  else if (styleMapLookup (normalizeValue p.brand_style)).truthy then
    styleMapLookup (normalizeValue p.brand_style)
  else JsVal.str "Classic"

/-- One slot assignment of extractFeatures for a mapped string: look the
value up in the slot vocabulary and set position offset+index to 1 when
found (the `indexOf !== -1` guard of the source). -/
def setSlot (features : List ℕ) (offset : ℕ) (vocab : List String) (v : String) :
    List ℕ :=
  match vocab.indexOf? v with
  | some i => features.set (offset + i) 1
  | none => features

/-- Array.prototype.indexOf on the slot vocabulary: only a string can
match a vocabulary entry; the inherited non-string values give -1. -/
def jsIndexOf (vocab : List String) (v : JsVal) : Option ℕ :=
  match v with
  | JsVal.str s => vocab.indexOf? s
  | _ => none

/-- One slot assignment of extractFeatures for a bracket-lookup value: the
`if (color)` truthiness guard first, then the indexOf guard; a truthy
non-string passes the first and fails the second, setting nothing. -/
def setSlotJs (features : List ℕ) (offset : ℕ) (vocab : List String)
    (v : JsVal) : List ℕ :=
  if v.truthy then
    match jsIndexOf vocab v with
    | some i => features.set (offset + i) 1
    | none => features
  else features

/-- Color stage of extractFeatures (featureMapping.js lines 275-280). -/
def colorStage (p : Product) (f : List ℕ) : List ℕ :=
  setSlotJs f 5 COLORS (mapColor p)

/-- Season stage of extractFeatures (featureMapping.js lines 291-296). -/
def seasonStage (p : Product) (f : List ℕ) : List ℕ :=
  setSlotJs f 17 SEASONS (mapSeason p)

/-- Style stage of extractFeatures (featureMapping.js lines 299-304). -/
def styleStage (p : Product) (f : List ℕ) : List ℕ :=
  setSlotJs f 21 STYLES (mapStyle p)

/-- extractFeatures (featureMapping.js lines 254-312): start from 26 zeros,
then one-hot the category (offset 0), color (offset 5), occasion
(offset 13), season (offset 17) and style (offset 21) slots, each behind
its truthiness and indexOf guards. -/
def extractFeatures (p : Product) : List ℕ :=
  styleStage p
    (seasonStage p
      (setSlot
        (colorStage p
          (setSlot (List.replicate FEATURE_SIZE 0) 0 CATEGORIES (mapCategory p)))
        13 OCCASIONS (mapOccasion p)))

/-- Sum of the half-open index segment [a, b) of a list. -/
def seg (l : List ℕ) (a b : ℕ) : ℕ := ((l.drop a).take (b - a)).sum

end FeatureMap

namespace FeatureMap

/-- Optional slot assignment at a given offset: colors and seasons set
position offset+j only when the mapped value exists. -/
def maybeSet (l : List ℕ) (off : ℕ) : Option ℕ → List ℕ
  | some j => l.set (off + j) 1
  | none => l

theorem mapCategory_cases (p : Product) :
    mapCategory p = "Dresses" ∨ mapCategory p = "Tops" ∨ mapCategory p = "Bottoms" ∨
      mapCategory p = "Outerwear" ∨ mapCategory p = "Swimwear" := by
  unfold mapCategory
  split_ifs <;> decide

theorem lookup_mem_values {β : Type} (l : List (String × β)) (k : String) (v : β)
    (h : List.lookup k l = some v) : v ∈ l.map Prod.snd := by
  induction l with
  | nil => simp [List.lookup] at h
  | cons hd tl ih =>
    obtain ⟨a, b⟩ := hd
    rw [List.lookup] at h
    split at h
    · simp only [Option.some.injEq] at h
      subst h
      simp
    · simpa using Or.inr (ih h)

theorem objLookup_cases (m : List (String × String)) (key : String) :
    (∃ v, m.lookup key = some v ∧ objLookup m key = JsVal.str v) ∨
      objLookup m key = JsVal.protoJunk ∨ objLookup m key = JsVal.undef := by
  unfold objLookup
  rcases h : m.lookup key with _ | v
  · dsimp only
    split_ifs
    · exact Or.inr (Or.inl rfl)
    · exact Or.inr (Or.inr rfl)
  · exact Or.inl ⟨v, rfl, rfl⟩

theorem mapColor_cases (p : Product) :
    mapColor p = JsVal.undef ∨ mapColor p = JsVal.protoJunk ∨
      mapColor p = JsVal.str "Black" ∨ mapColor p = JsVal.str "White" ∨
      mapColor p = JsVal.str "Blue" ∨ mapColor p = JsVal.str "Red" ∨
      mapColor p = JsVal.str "Green" ∨ mapColor p = JsVal.str "Pink" ∨
      mapColor p = JsVal.str "Brown" ∨ mapColor p = JsVal.str "Grey" := by
  unfold mapColor
  rcases objLookup_cases colorMap (normalizeValue p.primary_color) with
    ⟨v, hl, he⟩ | he | he <;> rw [he]
  · have hv := lookup_mem_values colorMap _ v hl
    fin_cases hv <;> decide
  · decide
  · decide

theorem mapOccasion_cases (p : Product) :
    mapOccasion p = "Casual" ∨ mapOccasion p = "Work" ∨ mapOccasion p = "Party" ∨
      mapOccasion p = "Formal" := by
  unfold mapOccasion
  split_ifs <;> decide

theorem mapSeason_cases (p : Product) :
    mapSeason p = JsVal.undef ∨ mapSeason p = JsVal.protoJunk ∨
      mapSeason p = JsVal.str "Spring" ∨ mapSeason p = JsVal.str "Summer" ∨
      mapSeason p = JsVal.str "Fall" ∨ mapSeason p = JsVal.str "Winter" := by
  unfold mapSeason
  rcases objLookup_cases seasonMap (normalizeValue p.season_primary) with
    ⟨v, hl, he⟩ | he | he <;> rw [he]
  · have hv := lookup_mem_values seasonMap _ v hl
    fin_cases hv <;> decide
  · decide
  · decide

theorem styleMapLookup_cases (s : String) :
    styleMapLookup s = JsVal.undef ∨ styleMapLookup s = JsVal.protoJunk ∨
      styleMapLookup s = JsVal.str "Trendy" ∨ styleMapLookup s = JsVal.str "Classic" ∨
      styleMapLookup s = JsVal.str "Minimalist" ∨ styleMapLookup s = JsVal.str "Boho" ∨
      styleMapLookup s = JsVal.str "Athletic" := by
  unfold styleMapLookup
  rcases objLookup_cases styleMap s with ⟨v, hl, he⟩ | he | he <;> rw [he]
  · have hv := lookup_mem_values styleMap _ v hl
    fin_cases hv <;> decide
  · exact Or.inr (Or.inl rfl)
  · exact Or.inl rfl

theorem mapStyle_cases (p : Product) :
    mapStyle p = JsVal.protoJunk ∨ mapStyle p = JsVal.str "Trendy" ∨
      mapStyle p = JsVal.str "Classic" ∨ mapStyle p = JsVal.str "Minimalist" ∨
      mapStyle p = JsVal.str "Boho" ∨ mapStyle p = JsVal.str "Athletic" := by
  unfold mapStyle
  rcases styleMapLookup_cases (normalizeValue p.style_category) with
    h|h|h|h|h|h|h <;> rw [h]
  · rcases styleMapLookup_cases (normalizeValue p.brand_style) with
      h2|h2|h2|h2|h2|h2|h2 <;> rw [h2] <;> decide
  all_goals simp [JsVal.truthy]

end FeatureMap

namespace FeatureMap

theorem sum_replicate_zero_set (n j : ℕ) (h : j < n) :
    ((List.replicate n 0).set j 1).sum = 1 := by
  induction n generalizing j with
  | zero => omega
  | succ n ih =>
    cases j with
    | zero => simp [List.replicate_succ]
    | succ j =>
      rw [List.replicate_succ, List.set_cons_succ, List.sum_cons, ih j (by omega)]

theorem seg_replicate (n a b : ℕ) : seg (List.replicate n 0) a b = 0 := by
  unfold seg
  simp [List.drop_replicate, List.take_replicate, List.sum_replicate]

theorem seg_set_of_lt (l : List ℕ) (i a b v : ℕ) (h : i < a) :
    seg (l.set i v) a b = seg l a b := by
  unfold seg
  rw [List.drop_set, if_pos h]

theorem seg_set_of_ge (l : List ℕ) (i a b v : ℕ) (h : b ≤ i) :
    seg (l.set i v) a b = seg l a b := by
  unfold seg
  rw [List.drop_set]
  split_ifs with h2
  · rfl
  · rw [List.set_take, List.set_eq_of_length_le]
    exact le_trans (List.length_take_le _ _) (by omega)

theorem seg_set_inside (l : List ℕ) (i a b : ℕ) (ha : a ≤ i) (hb : i < b)
    (hl : i < l.length) (hz : seg l a b = 0) : seg (l.set i 1) a b = 1 := by
  unfold seg at hz ⊢
  rw [List.drop_set, if_neg (by omega), List.set_take]
  have hlen : i - a < ((l.drop a).take (b - a)).length := by
    rw [List.length_take, List.length_drop]
    omega
  have hall : ∀ x ∈ (l.drop a).take (b - a), x = 0 := List.sum_eq_zero_iff.1 hz
  have hrep := List.eq_replicate_of_mem hall
  rw [hrep] at hlen ⊢
  exact sum_replicate_zero_set _ _ (by simpa using hlen)

theorem seg_maybeSet_of_lt (l : List ℕ) (off a b : ℕ) (o : Option ℕ)
    (h : ∀ j, o = some j → off + j < a) :
    seg (maybeSet l off o) a b = seg l a b := by
  cases o with
  | none => rfl
  | some j => exact seg_set_of_lt _ _ _ _ _ (h j rfl)

theorem seg_maybeSet_of_ge (l : List ℕ) (off a b : ℕ) (o : Option ℕ) (h : b ≤ off) :
    seg (maybeSet l off o) a b = seg l a b := by
  cases o with
  | none => rfl
  | some j => exact seg_set_of_ge _ _ _ _ _ (by omega)

theorem length_maybeSet (l : List ℕ) (off : ℕ) (o : Option ℕ) :
    (maybeSet l off o).length = l.length := by
  cases o <;> simp [maybeSet]

theorem mem_maybeSet (l : List ℕ) (off : ℕ) (o : Option ℕ) (x : ℕ)
    (h : x ∈ maybeSet l off o) : x ∈ l ∨ x = 1 := by
  cases o with
  | none => exact Or.inl h
  | some j => exact List.mem_or_eq_of_mem_set h

theorem sum_drop_split (l : List ℕ) (a b : ℕ) (h : a ≤ b) :
    (l.drop a).sum = seg l a b + (l.drop b).sum := by
  unfold seg
  have hd : l.drop b = (l.drop a).drop (b - a) := by
    rw [List.drop_drop]
    congr 1
    omega
  rw [hd]
  conv_lhs => rw [← List.take_append_drop (b - a) (l.drop a)]
  rw [List.sum_append]

end FeatureMap

namespace FeatureMap

theorem cat_stage (p : Product) :
    ∃ i1, i1 < 5 ∧ ∀ f : List ℕ, setSlot f 0 CATEGORIES (mapCategory p) = f.set i1 1 := by
  rcases mapCategory_cases p with h|h|h|h|h <;> rw [h]
  exacts [⟨0, by norm_num, fun f => rfl⟩, ⟨1, by norm_num, fun f => rfl⟩,
    ⟨2, by norm_num, fun f => rfl⟩, ⟨3, by norm_num, fun f => rfl⟩,
    ⟨4, by norm_num, fun f => rfl⟩]

theorem color_stage (p : Product) :
    ∃ o : Option ℕ, (∀ j, o = some j → j < 8) ∧
      ∀ f : List ℕ, colorStage p f = maybeSet f 5 o := by
  rcases mapColor_cases p with h|h|h|h|h|h|h|h|h|h <;> unfold colorStage <;> rw [h]
  exacts [⟨none, fun j hj => by simp at hj, fun f => rfl⟩,
    ⟨none, fun j hj => by simp at hj, fun f => rfl⟩,
    ⟨some 0, fun j hj => by simp at hj; omega, fun f => rfl⟩,
    ⟨some 1, fun j hj => by simp at hj; omega, fun f => rfl⟩,
    ⟨some 2, fun j hj => by simp at hj; omega, fun f => rfl⟩,
    ⟨some 3, fun j hj => by simp at hj; omega, fun f => rfl⟩,
    ⟨some 4, fun j hj => by simp at hj; omega, fun f => rfl⟩,
    ⟨some 5, fun j hj => by simp at hj; omega, fun f => rfl⟩,
    ⟨some 6, fun j hj => by simp at hj; omega, fun f => rfl⟩,
    ⟨some 7, fun j hj => by simp at hj; omega, fun f => rfl⟩]

theorem occ_stage (p : Product) :
    ∃ i3, i3 < 4 ∧ ∀ f : List ℕ, setSlot f 13 OCCASIONS (mapOccasion p) = f.set (13 + i3) 1 := by
  rcases mapOccasion_cases p with h|h|h|h <;> rw [h]
  exacts [⟨0, by norm_num, fun f => rfl⟩, ⟨1, by norm_num, fun f => rfl⟩,
    ⟨2, by norm_num, fun f => rfl⟩, ⟨3, by norm_num, fun f => rfl⟩]

theorem sea_stage (p : Product) :
    ∃ o : Option ℕ, (∀ j, o = some j → j < 4) ∧
      ∀ f : List ℕ, seasonStage p f = maybeSet f 17 o := by
  rcases mapSeason_cases p with h|h|h|h|h|h <;> unfold seasonStage <;> rw [h]
  exacts [⟨none, fun j hj => by simp at hj, fun f => rfl⟩,
    ⟨none, fun j hj => by simp at hj, fun f => rfl⟩,
    ⟨some 0, fun j hj => by simp at hj; omega, fun f => rfl⟩,
    ⟨some 1, fun j hj => by simp at hj; omega, fun f => rfl⟩,
    ⟨some 2, fun j hj => by simp at hj; omega, fun f => rfl⟩,
    ⟨some 3, fun j hj => by simp at hj; omega, fun f => rfl⟩]

theorem style_stage (p : Product) :
    ∃ o : Option ℕ, (∀ j, o = some j → j < 5) ∧
      (o = none → mapStyle p = JsVal.protoJunk) ∧
      ∀ f : List ℕ, styleStage p f = maybeSet f 21 o := by
  rcases mapStyle_cases p with h|h|h|h|h|h <;> unfold styleStage <;> rw [h]
  exacts [⟨none, fun j hj => by simp at hj, fun hn => rfl, fun f => rfl⟩,
    ⟨some 0, fun j hj => by simp at hj; omega, fun hn => by simp at hn, fun f => rfl⟩,
    ⟨some 1, fun j hj => by simp at hj; omega, fun hn => by simp at hn, fun f => rfl⟩,
    ⟨some 2, fun j hj => by simp at hj; omega, fun hn => by simp at hn, fun f => rfl⟩,
    ⟨some 3, fun j hj => by simp at hj; omega, fun hn => by simp at hn, fun f => rfl⟩,
    ⟨some 4, fun j hj => by simp at hj; omega, fun hn => by simp at hn, fun f => rfl⟩]

theorem extract_repr (p : Product) :
    ∃ (i1 : ℕ) (o2 : Option ℕ) (i3 : ℕ) (o4 : Option ℕ) (o5 : Option ℕ),
      i1 < 5 ∧ (∀ j, o2 = some j → j < 8) ∧ i3 < 4 ∧ (∀ j, o4 = some j → j < 4) ∧
      (∀ j, o5 = some j → j < 5) ∧ (o5 = none → mapStyle p = JsVal.protoJunk) ∧
      extractFeatures p =
        maybeSet ((maybeSet ((maybeSet ((List.replicate 26 0).set i1 1) 5 o2).set
          (13 + i3) 1) 17 o4)) 21 o5 := by
  obtain ⟨i1, hi1, h1⟩ := cat_stage p
  obtain ⟨o2, ho2, h2⟩ := color_stage p
  obtain ⟨i3, hi3, h3⟩ := occ_stage p
  obtain ⟨o4, ho4, h4⟩ := sea_stage p
  obtain ⟨o5, ho5, ho5n, h5⟩ := style_stage p
  refine ⟨i1, o2, i3, o4, o5, hi1, ho2, hi3, ho4, ho5, ho5n, ?_⟩
  unfold extractFeatures
  rw [h1, h2, h3, h4, h5]

end FeatureMap

/-- C9: for every product object, including ones with missing or unknown
fields, extractFeatures returns a length-26 vector of 0/1 entries with
exactly one 1 in the category slot (0-4) and exactly one 1 in the occasion
slot (13-16); the style slot (21-25) holds at most one 1 and is one-hot
exactly when mapStyle returned a vocabulary string, which fails only when a
prototype-chain key (constructor, __proto__) lets the inherited truthy
non-string escape the styleMap lookup; hence the entry sum is at least 2
and the vector is never all-zero; on the all-missing product the defaults
Tops (position 1), Casual (position 13) and Classic (position 22) are set
while the color slot (5-12) and the season slot (17-20) stay all-zero. -/
theorem C9_extractFeatures_shape :
    (∀ p : FeatureMap.Product,
      (FeatureMap.extractFeatures p).length = 26 ∧
      (∀ v ∈ FeatureMap.extractFeatures p, v = 0 ∨ v = 1) ∧
      FeatureMap.seg (FeatureMap.extractFeatures p) 0 5 = 1 ∧
      FeatureMap.seg (FeatureMap.extractFeatures p) 13 17 = 1 ∧
      FeatureMap.seg (FeatureMap.extractFeatures p) 21 26 ≤ 1 ∧
      (FeatureMap.mapStyle p ≠ FeatureMap.JsVal.protoJunk →
        FeatureMap.seg (FeatureMap.extractFeatures p) 21 26 = 1) ∧
      2 ≤ (FeatureMap.extractFeatures p).sum ∧
      FeatureMap.extractFeatures p ≠ List.replicate 26 0) ∧
    FeatureMap.extractFeatures
        (FeatureMap.Product.mk none none none none none none none none) =
      [0, 1, 0, 0, 0, 0, 0, 0, 0, 0, 0, 0, 0, 1, 0, 0, 0, 0, 0, 0, 0, 0, 1, 0, 0, 0] ∧
    FeatureMap.seg (FeatureMap.extractFeatures
        (FeatureMap.Product.mk none none none none none none none none)) 5 13 = 0 ∧
    FeatureMap.seg (FeatureMap.extractFeatures
        (FeatureMap.Product.mk none none none none none none none none)) 17 21 = 0 := by
  refine ⟨?_, by decide, by decide, by decide⟩
  intro p
  obtain ⟨i1, o2, i3, o4, o5, hi1, ho2, hi3, ho4, ho5, ho5n, hrepr⟩ :=
    FeatureMap.extract_repr p
  rw [hrepr]
  have hlE4 : (FeatureMap.maybeSet
      ((FeatureMap.maybeSet ((List.replicate 26 0).set i1 1) 5 o2).set (13 + i3) 1)
      17 o4).length = 26 := by
    rw [FeatureMap.length_maybeSet, List.length_set, FeatureMap.length_maybeSet,
      List.length_set, List.length_replicate]
  have hlen : (FeatureMap.maybeSet (FeatureMap.maybeSet
      ((FeatureMap.maybeSet ((List.replicate 26 0).set i1 1) 5 o2).set (13 + i3) 1)
      17 o4) 21 o5).length = 26 := by
    rw [FeatureMap.length_maybeSet]
    exact hlE4
  have hz26 : FeatureMap.seg (FeatureMap.maybeSet
      ((FeatureMap.maybeSet ((List.replicate 26 0).set i1 1) 5 o2).set (13 + i3) 1)
      17 o4) 21 26 = 0 := by
    rw [FeatureMap.seg_maybeSet_of_lt _ _ _ _ _
        (fun j hj => by have := ho4 j hj; omega),
      FeatureMap.seg_set_of_lt _ _ _ _ _ (by omega),
      FeatureMap.seg_maybeSet_of_lt _ _ _ _ _
        (fun j hj => by have := ho2 j hj; omega),
      FeatureMap.seg_set_of_lt _ _ _ _ _ (by omega)]
    exact FeatureMap.seg_replicate _ _ _
  have hseg05 : FeatureMap.seg (FeatureMap.maybeSet (FeatureMap.maybeSet
      ((FeatureMap.maybeSet ((List.replicate 26 0).set i1 1) 5 o2).set (13 + i3) 1)
      17 o4) 21 o5) 0 5 = 1 := by
    rw [FeatureMap.seg_maybeSet_of_ge _ _ _ _ _ (by omega),
      FeatureMap.seg_maybeSet_of_ge _ _ _ _ _ (by omega),
      FeatureMap.seg_set_of_ge _ _ _ _ _ (by omega),
      FeatureMap.seg_maybeSet_of_ge _ _ _ _ _ (by omega)]
    exact FeatureMap.seg_set_inside _ _ _ _ (by omega) hi1
      (by simp only [List.length_replicate]; omega)
      (FeatureMap.seg_replicate _ _ _)
  have hseg1317 : FeatureMap.seg (FeatureMap.maybeSet (FeatureMap.maybeSet
      ((FeatureMap.maybeSet ((List.replicate 26 0).set i1 1) 5 o2).set (13 + i3) 1)
      17 o4) 21 o5) 13 17 = 1 := by
    rw [FeatureMap.seg_maybeSet_of_ge _ _ _ _ _ (by omega),
      FeatureMap.seg_maybeSet_of_ge _ _ _ _ _ (by omega)]
    refine FeatureMap.seg_set_inside _ _ _ _ (by omega) (by omega) ?_ ?_
    · rw [FeatureMap.length_maybeSet, List.length_set, List.length_replicate]
      omega
    · rw [FeatureMap.seg_maybeSet_of_lt _ _ _ _ _
        (fun j hj => by have := ho2 j hj; omega),
        FeatureMap.seg_set_of_lt _ _ _ _ _ (by omega)]
      exact FeatureMap.seg_replicate _ _ _
  have hseg2126le : FeatureMap.seg (FeatureMap.maybeSet (FeatureMap.maybeSet
      ((FeatureMap.maybeSet ((List.replicate 26 0).set i1 1) 5 o2).set (13 + i3) 1)
      17 o4) 21 o5) 21 26 ≤ 1 := by
    cases o5 with
    | none => exact le_trans (le_of_eq hz26) (Nat.zero_le 1)
    | some j =>
      have hj : j < 5 := ho5 j rfl
      exact le_of_eq (FeatureMap.seg_set_inside _ (21 + j) 21 26 (by omega)
        (by omega) (by rw [hlE4]; omega) hz26)
  have hseg2126eq : FeatureMap.mapStyle p ≠ FeatureMap.JsVal.protoJunk →
      FeatureMap.seg (FeatureMap.maybeSet (FeatureMap.maybeSet
      ((FeatureMap.maybeSet ((List.replicate 26 0).set i1 1) 5 o2).set (13 + i3) 1)
      17 o4) 21 o5) 21 26 = 1 := by
    intro hstyle
    cases o5 with
    | none => exact absurd (ho5n rfl) hstyle
    | some j =>
      have hj : j < 5 := ho5 j rfl
      exact FeatureMap.seg_set_inside _ (21 + j) 21 26 (by omega)
        (by omega) (by rw [hlE4]; omega) hz26
  have hsum : 2 ≤ (FeatureMap.maybeSet (FeatureMap.maybeSet
      ((FeatureMap.maybeSet ((List.replicate 26 0).set i1 1) 5 o2).set (13 + i3) 1)
      17 o4) 21 o5).sum := by
    set F := FeatureMap.maybeSet (FeatureMap.maybeSet
      ((FeatureMap.maybeSet ((List.replicate 26 0).set i1 1) 5 o2).set (13 + i3) 1)
      17 o4) 21 o5 with hF
    have h0 : F.sum = (F.drop 0).sum := by rw [List.drop_zero]
    have e1 := FeatureMap.sum_drop_split F 0 5 (by omega)
    have e2 := FeatureMap.sum_drop_split F 5 13 (by omega)
    have e3 := FeatureMap.sum_drop_split F 13 17 (by omega)
    have e4 := FeatureMap.sum_drop_split F 17 21 (by omega)
    have e5 := FeatureMap.sum_drop_split F 21 26 (by omega)
    have hnil : (F.drop 26).sum = 0 := by
      rw [List.drop_eq_nil_of_le (by rw [hlen])]
      rfl
    omega
  refine ⟨hlen, ?_, hseg05, hseg1317, hseg2126le, hseg2126eq, hsum, ?_⟩
  · intro v hv
    rcases FeatureMap.mem_maybeSet _ _ _ _ hv with hv | rfl
    · rcases FeatureMap.mem_maybeSet _ _ _ _ hv with hv | rfl
      · rcases List.mem_or_eq_of_mem_set hv with hv | rfl
        · rcases FeatureMap.mem_maybeSet _ _ _ _ hv with hv | rfl
          · rcases List.mem_or_eq_of_mem_set hv with hv | rfl
            · exact Or.inl (List.eq_of_mem_replicate hv)
            · exact Or.inr rfl
          · exact Or.inr rfl
        · exact Or.inr rfl
      · exact Or.inr rfl
    · exact Or.inr rfl
  · intro heq
    rw [heq] at hsum
    simp [List.sum_replicate] at hsum

/-- C9 (counterexample): on a product whose style_category is the
prototype-chain key constructor, styleMap[styleCategory] yields the
inherited truthy Object.prototype.constructor, mapStyle returns it instead
of defaulting to Classic, indexOf gives -1, the style slot 21-25 stays
all-zero and the entry sum is 2, refuting the claimed one 1 in the style
slot and the claimed sum of at least 3. -/
theorem C9_counterexample :
    FeatureMap.mapStyle
        (FeatureMap.Product.mk none none none none none none
          (some "constructor") none) = FeatureMap.JsVal.protoJunk ∧
    FeatureMap.seg (FeatureMap.extractFeatures
        (FeatureMap.Product.mk none none none none none none
          (some "constructor") none)) 21 26 = 0 ∧
    (FeatureMap.extractFeatures
        (FeatureMap.Product.mk none none none none none none
          (some "constructor") none)).sum = 2 := by
  decide

/-- C9 (witness): the all-missing product does not hit the prototype chain,
so the style slot is one-hot (the Classic default). -/
theorem C9_witness :
    FeatureMap.mapStyle (FeatureMap.Product.mk none none none none none none
      none none) ≠ FeatureMap.JsVal.protoJunk ∧
    FeatureMap.seg (FeatureMap.extractFeatures
      (FeatureMap.Product.mk none none none none none none none none)) 21 26 = 1 :=
  ⟨by decide,
    (C9_extractFeatures_shape.1
      (FeatureMap.Product.mk none none none none none none none none)).2.2.2.2.2.1
      (by decide)⟩

namespace Store

/-- Retention cap HISTORY_RETENTION = 100 of DIVERSITY_CONFIG
(src/utils/caching.ts line 318). -/
abbrev HISTORY_RETENTION : ℕ := 100

/-- Session-history document for one fixed session (src/utils/caching.ts
lines 328-334).  Every store operation of the source filters on session_id,
so the collection is modelled per session as a list in insertion order
(MongoDB natural order), oldest first; shown_at timestamps are handed in by
a monotone clock, so insertion order and shown_at order agree. -/
structure HistoryEntry where
  product_id : String
  shown_at : ℕ
  user_action : Option String
  action_timestamp : Option ℕ
deriving DecidableEq

/-- recordShownProduct (src/utils/caching.ts lines 400-433): insert an entry
with action null, then delete the records of this session beyond the
HISTORY_RETENTION newest (sort shown_at descending, skip 100, delete the
rest).  On the insertion-order list this keeps the last 100 elements. -/
def recordShownProduct (l : List HistoryEntry) (productId : String) (now : ℕ) :
    List HistoryEntry :=
  let inserted := l ++ [⟨productId, now, none, none⟩]
  inserted.drop (inserted.length - HISTORY_RETENTION)

/-- getSessionHistory (src/utils/caching.ts lines 468-491): newest first,
limited to HISTORY_RETENTION entries by default. -/
def getSessionHistory (l : List HistoryEntry) : List HistoryEntry :=
  l.reverse.take HISTORY_RETENTION

theorem length_recordShownProduct (l : List HistoryEntry) (pid : String) (now : ℕ) :
    (recordShownProduct l pid now).length = min (l.length + 1) HISTORY_RETENTION := by
  unfold recordShownProduct
  rw [List.length_drop, List.length_append]
  simp
  omega

end Store

/-- C8: starting from an empty session history, after K record_shown inserts
the stored history for the session holds exactly min(K, 100) entries: every
insert appends one entry and purges the oldest entries beyond the retention
cap of 100. -/
theorem C8_history_retention (inserts : List (String × ℕ)) :
    (inserts.foldl (fun l pr => Store.recordShownProduct l pr.1 pr.2) []).length =
      min inserts.length 100 := by
  suffices h : ∀ l : List Store.HistoryEntry, l.length ≤ 100 →
      (inserts.foldl (fun l pr => Store.recordShownProduct l pr.1 pr.2) l).length =
        min (l.length + inserts.length) 100 by
    simpa using h [] (by simp)
  induction inserts with
  | nil =>
    intro l hl
    simp only [List.foldl_nil, List.length_nil, Nat.add_zero]
    omega
  | cons pr rest ih =>
    intro l hl
    rw [List.foldl_cons,
      ih (Store.recordShownProduct l pr.1 pr.2)
        (by rw [Store.length_recordShownProduct]
            simp only [Store.HISTORY_RETENTION]
            omega),
      Store.length_recordShownProduct]
    simp only [List.length_cons, Store.HISTORY_RETENTION]
    omega

namespace LinUCB

/-- JavaScript value of rewardMap[action.toLowerCase()] ?? 0.0
(src/models/LinUCB.js lines 444-454): a declared number for the five
vocabulary actions, 0.0 when the bracket lookup is undefined (?? fires),
or the truthy non-number inherited from Object.prototype for the lookup
keys constructor and __proto__ - the only Object.prototype property names
without an upper-case letter, hence the only ones reachable after
toLowerCase - on which ?? does not fire. -/
inductive JsNum where
  | num (r : ℝ)
  | protoJunk

/-- rewardMap object literal (src/models/LinUCB.js lines 445-451). -/
noncomputable def rewardMap : List (String × ℝ) :=
  [("love", 2), ("like", 1), ("dislike", -1), ("skip", 0), ("neutral", 0)]

/-- mapActionToReward (src/models/LinUCB.js lines 444-454):
rewardMap[action.toLowerCase()] ?? 0.0 with full bracket semantics; the
action is lowercased but not trimmed. -/
noncomputable def mapActionToRewardJS (action : String) : JsNum :=
  match rewardMap.lookup (String.mk (action.data.map FeatureMap.lowerChar)) with
  | some r => JsNum.num r
  | none =>
    if String.mk (action.data.map FeatureMap.lowerChar) ∈ FeatureMap.protoKeys then
      JsNum.protoJunk
    else JsNum.num 0

/-- JS-variant `updateModel` (src/models/LinUCB.js lines 152-227): the input
is the raw JS array (a list) and the JS reward value; validation throws
before any mutation when the length is not 26, when typeof reward is not
number (the prototype junk), or when the number is outside [-1, 2]; the
catch block then returns success false with the state untouched.  On valid
input the usual A ← A + xxᵀ, b ← b + r·x, θ ← A⁻¹b updates run, the
interaction counter is incremented, and alpha decays by 0.95 (floored at
MIN_ALPHA) once the counter exceeds 10. -/
noncomputable def updateModelJS {d : ℕ} (m : Model d) (xs : List ℝ) (r : JsNum) :
    Model d × Bool :=
  if xs.length ≠ d then (m, false)
  else
    match r with
    | JsNum.protoJunk => (m, false)
    | JsNum.num r =>
      if r < -1 ∨ 2 < r then (m, false)
      else
        let x : Fin d → ℝ := fun i => xs.getD i 0
        let A := m.A + Matrix.vecMulVec x x
        let b := m.b + r • x
        let t := m.totalInteractions + 1
        let alpha := if 10 < t then max MIN_ALPHA (m.alpha * ADAPTIVE_ALPHA_DECAY)
          else m.alpha
        ({ alpha := alpha, A := A, b := b, theta := A⁻¹ *ᵥ b,
           totalInteractions := t }, true)

end LinUCB

theorem mapActionToRewardJS_proto :
    LinUCB.mapActionToRewardJS "constructor" = LinUCB.JsNum.protoJunk := by
  unfold LinUCB.mapActionToRewardJS
  rw [show String.mk ("constructor".data.map FeatureMap.lowerChar) =
    "constructor" from by decide]
  rw [show LinUCB.rewardMap.lookup "constructor" = none from rfl]
  rw [if_pos (by decide)]

/-- C10: the JS-variant updateModel rejects, reporting success false and
leaving A, b, theta, alpha and totalInteractions untouched, any feature
vector whose length is not 26, any non-number reward and any number outside
[-1, 2] (validation precedes every mutation), and accepts number rewards in
[-1, 2] on length-26 vectors; mapActionToReward returns a number in [-1, 2]
- hence accepted - for every action except the prototype-chain keys, on
which it returns the inherited non-number that updateModel then rejects. -/
theorem C10_updateModelJS_validation (m : LinUCB.Model 26) (xs : List ℝ) :
    (∀ r : LinUCB.JsNum, xs.length ≠ 26 →
      LinUCB.updateModelJS m xs r = (m, false)) ∧
    (LinUCB.updateModelJS m xs LinUCB.JsNum.protoJunk = (m, false)) ∧
    (∀ v : ℝ, v < -1 ∨ 2 < v →
      LinUCB.updateModelJS m xs (LinUCB.JsNum.num v) = (m, false)) ∧
    (∀ v : ℝ, xs.length = 26 → -1 ≤ v → v ≤ 2 →
      (LinUCB.updateModelJS m xs (LinUCB.JsNum.num v)).2 = true) ∧
    (∀ action : String,
      LinUCB.mapActionToRewardJS action = LinUCB.JsNum.protoJunk ∨
      ∃ v : ℝ, LinUCB.mapActionToRewardJS action = LinUCB.JsNum.num v ∧
        -1 ≤ v ∧ v ≤ 2 ∧ (xs.length = 26 →
          (LinUCB.updateModelJS m xs (LinUCB.mapActionToRewardJS action)).2 =
            true)) ∧
    (∀ action : String,
      LinUCB.mapActionToRewardJS action = LinUCB.JsNum.protoJunk →
      LinUCB.updateModelJS m xs (LinUCB.mapActionToRewardJS action) =
        (m, false)) := by
  have hjunk : LinUCB.updateModelJS m xs LinUCB.JsNum.protoJunk = (m, false) := by
    unfold LinUCB.updateModelJS
    split_ifs <;> rfl
  have hrej : ∀ r : LinUCB.JsNum, xs.length ≠ 26 →
      LinUCB.updateModelJS m xs r = (m, false) := by
    intro r h
    unfold LinUCB.updateModelJS
    rw [if_pos h]
  have hoor : ∀ v : ℝ, v < -1 ∨ 2 < v →
      LinUCB.updateModelJS m xs (LinUCB.JsNum.num v) = (m, false) := by
    intro v hv
    unfold LinUCB.updateModelJS
    split_ifs with h1
    · rfl
    · dsimp only
      rw [if_pos hv]
  have hacc : ∀ v : ℝ, xs.length = 26 → -1 ≤ v → v ≤ 2 →
      (LinUCB.updateModelJS m xs (LinUCB.JsNum.num v)).2 = true := by
    intro v h1 h2 h3
    unfold LinUCB.updateModelJS
    rw [if_neg (by simp [h1])]
    dsimp only
    rw [if_neg (by push_neg; exact ⟨h2, h3⟩)]
  have hvals : LinUCB.rewardMap.map Prod.snd = [2, 1, -1, 0, 0] := rfl
  have hmap : ∀ action : String,
      LinUCB.mapActionToRewardJS action = LinUCB.JsNum.protoJunk ∨
      ∃ v : ℝ, LinUCB.mapActionToRewardJS action = LinUCB.JsNum.num v ∧
        -1 ≤ v ∧ v ≤ 2 := by
    intro action
    unfold LinUCB.mapActionToRewardJS
    rcases h : LinUCB.rewardMap.lookup
        (String.mk (action.data.map FeatureMap.lowerChar)) with _ | v
    · dsimp only
      split_ifs
      · exact Or.inl rfl
      · exact Or.inr ⟨0, rfl, by norm_num, by norm_num⟩
    · have hv := FeatureMap.lookup_mem_values LinUCB.rewardMap _ v h
      rw [hvals] at hv
      refine Or.inr ⟨v, rfl, ?_, ?_⟩ <;> fin_cases hv <;> norm_num
  refine ⟨hrej, hjunk, hoor, hacc, ?_, ?_⟩
  · intro action
    rcases hmap action with h | ⟨v, hv, h1, h2⟩
    · exact Or.inl h
    · exact Or.inr ⟨v, hv, h1, h2, fun hlen => by rw [hv]; exact hacc v hlen h1 h2⟩
  · intro action hj
    rw [hj]
    exact hjunk

/-- C10 (counterexample): mapActionToReward("constructor") returns the
inherited Object.prototype.constructor - a non-number outside [-1, 2] -
and updateModel rejects it on a valid length-26 vector, refuting the claim
that every produced reward lies in [-1, 2] and is therefore accepted. -/
theorem C10_counterexample :
    LinUCB.mapActionToRewardJS "constructor" = LinUCB.JsNum.protoJunk ∧
    LinUCB.updateModelJS (LinUCB.initializeJS 26 LinUCB.DEFAULT_ALPHA)
        (List.replicate 26 (0:ℝ))
        (LinUCB.mapActionToRewardJS "constructor") =
      (LinUCB.initializeJS 26 LinUCB.DEFAULT_ALPHA, false) := by
  refine ⟨mapActionToRewardJS_proto, ?_⟩
  rw [mapActionToRewardJS_proto]
  unfold LinUCB.updateModelJS
  rw [if_neg (by simp)]

/-- C10 (witness): a 25-element vector is rejected without touching the
state, an out-of-range number 3 is rejected, a valid reward 1 on a
26-element vector is accepted, and the prototype-junk reward produced for
the action constructor is rejected. -/
theorem C10_witness :
    ((List.replicate 25 (0:ℝ)).length ≠ 26) ∧
    LinUCB.updateModelJS (LinUCB.initializeJS 26 LinUCB.DEFAULT_ALPHA)
        (List.replicate 25 (0:ℝ)) (LinUCB.JsNum.num 0) =
      (LinUCB.initializeJS 26 LinUCB.DEFAULT_ALPHA, false) ∧
    ((2:ℝ) < 3) ∧
    LinUCB.updateModelJS (LinUCB.initializeJS 26 LinUCB.DEFAULT_ALPHA)
        (List.replicate 26 (0:ℝ)) (LinUCB.JsNum.num 3) =
      (LinUCB.initializeJS 26 LinUCB.DEFAULT_ALPHA, false) ∧
    ((List.replicate 26 (0:ℝ)).length = 26 ∧ (-1:ℝ) ≤ 1 ∧ (1:ℝ) ≤ 2) ∧
    (LinUCB.updateModelJS (LinUCB.initializeJS 26 LinUCB.DEFAULT_ALPHA)
        (List.replicate 26 (0:ℝ)) (LinUCB.JsNum.num 1)).2 = true ∧
    LinUCB.updateModelJS (LinUCB.initializeJS 26 LinUCB.DEFAULT_ALPHA)
        (List.replicate 26 (0:ℝ))
        (LinUCB.mapActionToRewardJS "constructor") =
      (LinUCB.initializeJS 26 LinUCB.DEFAULT_ALPHA, false) :=
  ⟨by simp,
   (C10_updateModelJS_validation (LinUCB.initializeJS 26 LinUCB.DEFAULT_ALPHA)
     (List.replicate 25 (0:ℝ))).1 (LinUCB.JsNum.num 0) (by simp),
   by norm_num,
   (C10_updateModelJS_validation (LinUCB.initializeJS 26 LinUCB.DEFAULT_ALPHA)
     (List.replicate 26 (0:ℝ))).2.2.1 3 (Or.inr (by norm_num)),
   ⟨by simp, by norm_num, by norm_num⟩,
   (C10_updateModelJS_validation (LinUCB.initializeJS 26 LinUCB.DEFAULT_ALPHA)
     (List.replicate 26 (0:ℝ))).2.2.2.1 1 (by simp) (by norm_num) (by norm_num),
   (C10_updateModelJS_validation (LinUCB.initializeJS 26 LinUCB.DEFAULT_ALPHA)
     (List.replicate 26 (0:ℝ))).2.2.2.2.2 "constructor" mapActionToRewardJS_proto⟩

namespace Guard

/-! Shallow embedding of src/middleware/enhancedDuplicateDetection.ts.
The three module-level `Map`s become explicit association lists inside a
`GuardState` (JS `Map.set` is modelled as cons, so `List.lookup`, which
returns the first match, sees the newest binding, exactly like `Map.get`
after an overwriting `set`).  The sha256 request hash is injective on the
request identity tuple, so the hash is modelled by the request record
itself.  An absent or empty (falsy) idempotency key is `none`.  Fields the
embedded flows never read (ip, conflictReason, suggestedAction) are
omitted. -/

abbrev FEEDBACK_SAME_PRODUCT : ℕ := 60000
abbrev RAPID_FEEDBACK : ℕ := 5000
structure FeedbackRecord where
  sessionId : String
  productId : String
  action : String
  timestamp : ℕ
  idempotencyKey : Option String
  processed : Bool
deriving DecidableEq

inductive ConflictType where
  | rapid_feedback
  | feedback_conflict
deriving DecidableEq

structure ConflictInfo where
  ctype : ConflictType
  originalTimestamp : ℕ
  allowRetryAfter : ℕ
deriving DecidableEq

def feedbackKey (sessionId productId action : String) : String :=
  sessionId ++ ":" ++ productId ++ ":" ++ action

/-- checkFeedbackConflict (lines 84-129): on a stored record for the same
(session, product, action) key, allow if at least 60 s have elapsed, then
allow a retry carrying the same idempotency key, then reject as
rapid_feedback under 5 s, otherwise reject as feedback_conflict; the
retry_after fields are Math.ceil((window - elapsed) / 1000). -/
def checkFeedbackConflict (hist : List (String × FeedbackRecord))
    (sessionId productId action : String) (idempotencyKey : Option String)
    (now : ℕ) : Option ConflictInfo :=
  match hist.lookup (feedbackKey sessionId productId action) with
  | none => none
  | some existing =>
    if FEEDBACK_SAME_PRODUCT ≤ now - existing.timestamp then none
    else if idempotencyKey ≠ none ∧ existing.idempotencyKey = idempotencyKey then none
    else if now - existing.timestamp < RAPID_FEEDBACK then
      some ⟨ConflictType.rapid_feedback, existing.timestamp,
        (RAPID_FEEDBACK - (now - existing.timestamp) + 999) / 1000⟩
    else
      some ⟨ConflictType.feedback_conflict, existing.timestamp,
        (FEEDBACK_SAME_PRODUCT - (now - existing.timestamp) + 999) / 1000⟩

end Guard

/-- C6: for a feedback request whose (session, product, action) tuple has a
guard record: a record at least 60 s old lets the request through; a request
carrying the same idempotency key as the record is let through; with a
different key or none, a record younger than 5 s yields a rapid_feedback
conflict with retry_after = 5 - elapsed seconds, and a record between 5 s
and 60 s old yields a feedback_conflict with retry_after = 60 - elapsed
seconds (the code computes ceil((window_ms - elapsed_ms)/1000), which
equals window_s - floor(elapsed_s) on these ranges). -/
theorem Guard.C6_checkFeedbackConflict (hist : List (String × Guard.FeedbackRecord))
    (sid pid act : String) (idemKey : Option String) (now : ℕ)
    (rec : Guard.FeedbackRecord)
    (hfound : hist.lookup (Guard.feedbackKey sid pid act) = some rec)
    (hts : rec.timestamp ≤ now) :
    (Guard.FEEDBACK_SAME_PRODUCT ≤ now - rec.timestamp →
      Guard.checkFeedbackConflict hist sid pid act idemKey now = none) ∧
    (now - rec.timestamp < Guard.FEEDBACK_SAME_PRODUCT →
      idemKey ≠ none → rec.idempotencyKey = idemKey →
      Guard.checkFeedbackConflict hist sid pid act idemKey now = none) ∧
    (now - rec.timestamp < Guard.RAPID_FEEDBACK →
      (idemKey = none ∨ rec.idempotencyKey ≠ idemKey) →
      Guard.checkFeedbackConflict hist sid pid act idemKey now =
        some ⟨Guard.ConflictType.rapid_feedback, rec.timestamp,
          5 - (now - rec.timestamp) / 1000⟩) ∧
    (Guard.RAPID_FEEDBACK ≤ now - rec.timestamp →
      now - rec.timestamp < Guard.FEEDBACK_SAME_PRODUCT →
      (idemKey = none ∨ rec.idempotencyKey ≠ idemKey) →
      Guard.checkFeedbackConflict hist sid pid act idemKey now =
        some ⟨Guard.ConflictType.feedback_conflict, rec.timestamp,
          60 - (now - rec.timestamp) / 1000⟩) := by
  unfold Guard.checkFeedbackConflict
  rw [hfound]
  dsimp only
  refine ⟨fun h60 => ?_, fun h60 hk1 hk2 => ?_, fun h5 hk => ?_, fun h5 h60 hk => ?_⟩
  · rw [if_pos h60]
  · rw [if_neg (by omega), if_pos ⟨hk1, hk2⟩]
  · have hne : ¬(idemKey ≠ none ∧ rec.idempotencyKey = idemKey) := by
      rcases hk with h | h
      · intro hc; exact hc.1 h
      · intro hc; exact h hc.2
    rw [if_neg (by simp only [Guard.FEEDBACK_SAME_PRODUCT, Guard.RAPID_FEEDBACK] at *; omega),
      if_neg hne, if_pos h5]
    have : (Guard.RAPID_FEEDBACK - (now - rec.timestamp) + 999) / 1000 =
        5 - (now - rec.timestamp) / 1000 := by
      simp only [Guard.RAPID_FEEDBACK] at *
      omega
    rw [this]
  · have hne : ¬(idemKey ≠ none ∧ rec.idempotencyKey = idemKey) := by
      rcases hk with h | h
      · intro hc; exact hc.1 h
      · intro hc; exact h hc.2
    rw [if_neg (by omega), if_neg hne, if_neg (by omega)]
    have : (Guard.FEEDBACK_SAME_PRODUCT - (now - rec.timestamp) + 999) / 1000 =
        60 - (now - rec.timestamp) / 1000 := by
      simp only [Guard.FEEDBACK_SAME_PRODUCT, Guard.RAPID_FEEDBACK] at *
      omega
    rw [this]

/-- C6 (witness): with one record at t = 0 and a key-less request at
t = 3200 ms, the guard rejects with rapid_feedback and retry_after 2 s. -/
theorem C6_witness :
    ([(Guard.feedbackKey "s" "p" "love",
        (⟨"s", "p", "love", 0, none, false⟩ : Guard.FeedbackRecord))].lookup
      (Guard.feedbackKey "s" "p" "love") =
        some (⟨"s", "p", "love", 0, none, false⟩ : Guard.FeedbackRecord)) ∧
    (0 : ℕ) ≤ 3200 ∧ (3200 - 0 : ℕ) < Guard.RAPID_FEEDBACK ∧
    Guard.checkFeedbackConflict
      [(Guard.feedbackKey "s" "p" "love",
        (⟨"s", "p", "love", 0, none, false⟩ : Guard.FeedbackRecord))]
      "s" "p" "love" none 3200 =
      some ⟨Guard.ConflictType.rapid_feedback, 0, 2⟩ :=
  ⟨by decide, by decide, by decide,
    (Guard.C6_checkFeedbackConflict
      [(Guard.feedbackKey "s" "p" "love",
        (⟨"s", "p", "love", 0, none, false⟩ : Guard.FeedbackRecord))]
      "s" "p" "love" none 3200
      (⟨"s", "p", "love", 0, none, false⟩ : Guard.FeedbackRecord)
      (by decide) (by decide)).2.2.1 (by decide) (Or.inl rfl)⟩

namespace Rec

/-! Shallow embedding of the recommendation cache (src/utils/caching.ts,
class RecommendationCache) and of GET /recommend/:sessionId
(src/unnamed/part_003 lines 820-1075).  The md5 of
JSON.stringify({sessionId, filters, count}) is injective on its inputs, so
the cache key is modelled by the triple itself; note that no history
length enters the key.  The JS Map becomes an association list with
unique keys (set overwrites in place, inserts append, matching Map
iteration order).  Floating-point scoring, the sort by final score and
Math.random are abstracted as parameters (orderScored, rnd); the Mongo
$sample stage is a parameter too; the theorems only assume they return
elements of their input.  The diversity rules computed by
calculateDiversityNeeds are likewise a parameter: the claims do not
constrain them and they only shrink the candidate pool. -/

abbrev EXCLUSION_WINDOW : ℕ := 20
abbrev TOP_CANDIDATES : ℕ := 5

structure Filters where
  minPrice : ℚ
  maxPrice : ℚ
  category : Option String
  limit : ℕ
deriving DecidableEq

/-- Response fields the claims inspect: recommendation.product.product_id
and user_stats.products_seen. -/
structure RecResponse where
  productId : String
  productsSeen : ℕ
deriving DecidableEq

abbrev CacheKey := String × Filters × ℕ

structure CacheItem where
  dataBody : RecResponse
  timestamp : ℕ
  ttl : ℕ
  hits : ℕ
  sessionId : String
deriving DecidableEq

structure RecommendationCache where
  cache : List (CacheKey × CacheItem)
  hitCount : ℕ
  missCount : ℕ
  maxSize : ℕ
  defaultTTL : ℕ
deriving DecidableEq

/-- RecommendationCache.get (lines 91-113): miss on absent key; an entry
older than its ttl is deleted and counted as a miss; otherwise the stored
data is returned with the hit counters bumped. -/
def cacheGet (c : RecommendationCache) (sessionId : String) (f : Filters)
    (count now : ℕ) : Option RecResponse × RecommendationCache :=
  match c.cache.lookup (sessionId, f, count) with
  | none => (none, { c with missCount := c.missCount + 1 })
  | some item =>
    if item.ttl < now - item.timestamp then
      (none, { c with
        cache := c.cache.filter (fun kv => !(kv.1 == (sessionId, f, count))),
        missCount := c.missCount + 1 })
    else
      (some item.dataBody,
        { c with
          cache := c.cache.map (fun kv =>
            if kv.1 == (sessionId, f, count) then
              (kv.1, { kv.2 with hits := kv.2.hits + 1 })
            else kv),
          hitCount := c.hitCount + 1 })

/-- removeOldest (lines 166-180): delete the first entry whose timestamp
is minimal among those strictly below Date.now(); nothing otherwise. -/
def removeOldest (l : List (CacheKey × CacheItem)) (now : ℕ) :
    List (CacheKey × CacheItem) :=
  let best := l.foldl
    (fun acc kv => if kv.2.timestamp < acc.2 then (some kv.1, kv.2.timestamp) else acc)
    ((none : Option CacheKey), now)
  match best.1 with
  | none => l
  | some k => l.filter (fun kv => !(kv.1 == k))

/-- Eviction loop of set (lines 70-72): while size ≥ maxSize remove the
oldest entry; the fuel bounds the iterations by the initial size, which
is exactly where the JS loop stops whenever maxSize ≥ 1. -/
def evict (fuel maxSize : ℕ) (l : List (CacheKey × CacheItem)) (now : ℕ) :
    List (CacheKey × CacheItem) :=
  match fuel with
  | 0 => l
  | fuel + 1 =>
    if maxSize ≤ l.length then evict fuel maxSize (removeOldest l now) now else l

def mapSet (l : List (CacheKey × CacheItem)) (key : CacheKey)
    (item : CacheItem) : List (CacheKey × CacheItem) :=
  if (l.lookup key).isSome then
    l.map (fun kv => if kv.1 == key then (key, item) else kv)
  else l ++ [(key, item)]

/-- RecommendationCache.set (lines 64-86); a zero (falsy) ttl argument
falls back to the default. -/
def cacheSet (c : RecommendationCache) (sessionId : String) (f : Filters)
    (count : ℕ) (data : RecResponse) (ttl now : ℕ) : RecommendationCache :=
  let expiry := if ttl = 0 then c.defaultTTL else ttl
  let evicted := evict (c.cache.length + 1) c.maxSize c.cache now
  let item : CacheItem :=
    { dataBody := data, timestamp := now, ttl := expiry, hits := 0,
      sessionId := sessionId }
  { c with cache := mapSet evicted (sessionId, f, count) item }

structure Candidate where
  product_id : String
  category_main : String
  primary_color : String
  brand : String
  price : ℚ
deriving DecidableEq

structure DiversityRules where
  forceNewCategory : Bool
  forceNewColor : Bool
  forceNewBrand : Bool
  avoidCategory : Option String
  avoidColor : Option String
  avoidBrand : Option String
deriving DecidableEq

def lowerStr (s : String) : String :=
  String.mk (s.data.map FeatureMap.lowerChar)

/-- Case-insensitive regex test new RegExp(category, i) on a literal
category string is a case-insensitive substring test. -/
def containsCI (hay needle : String) : Bool :=
  decide (List.IsInfix (lowerStr needle).data (lowerStr hay).data)

/-- Price filter {$gte, $lte} of STEP 4 plus the optional category regex
(absent or falsy category, or the literal all, matches everything). -/
def priceAndCategoryOk (f : Filters) (c : Candidate) : Bool :=
  decide (f.minPrice ≤ c.price) && decide (c.price ≤ f.maxPrice) &&
  (match f.category with
   | none => true
   | some cat => if cat = "all" then true else containsCI c.category_main cat)

def avoidOk (force : Bool) (avoid : Option String) (v : String) : Bool :=
  match force, avoid with
  | true, some a => v != a
  | _, _ => true

/-- getFilteredCandidates (caching.ts lines 656-696): $nin on excludeIds,
the additional price and category filters, and the three $ne diversity
constraints; the trailing $sample stage is the sample parameter of
recommendStep. -/
def getFilteredCandidates (catalog : List Candidate) (excludeIds : List String)
    (rules : DiversityRules) (f : Filters) : List Candidate :=
  catalog.filter (fun c =>
    decide (c.product_id ∉ excludeIds) &&
    priceAndCategoryOk f c &&
    avoidOk rules.forceNewCategory rules.avoidCategory c.category_main &&
    avoidOk rules.forceNewColor rules.avoidColor c.primary_color &&
    avoidOk rules.forceNewBrand rules.avoidBrand c.brand)

/-- selectRecommendation (caching.ts lines 748-772): sort by final score
(the orderScored parameter) and pick a random element among the top
min(TOP_CANDIDATES, length). -/
def selectRecommendation (orderScored : List Candidate → List Candidate)
    (rnd : ℕ) (scored : List Candidate) : Option Candidate :=
  let sorted := orderScored scored
  let top := sorted.take (min TOP_CANDIDATES sorted.length)
  top[rnd % top.length]?

structure RecState where
  history : List Store.HistoryEntry
  cache : RecommendationCache
deriving DecidableEq

/-- GET /recommend/:sessionId for one session: the cache is consulted
FIRST with count 1 (line 845), before the session history is even read;
on a miss the exclusion list is the 20 most recent history entries, the
filtered candidates are sampled, scored and one of the top five is
selected, the shown product is recorded, user_stats.products_seen is the
history length read at the start, and the response is cached with a
300000 ms ttl. -/
def recommendStep (catalog : List Candidate)
    (sample orderScored : List Candidate → List Candidate) (rnd : ℕ)
    (sessionId : String) (f : Filters) (rules : DiversityRules)
    (st : RecState) (now : ℕ) : Option RecResponse × RecState :=
  match cacheGet st.cache sessionId f 1 now with
  | (some cached, c2) => (some cached, { st with cache := c2 })
  | (none, c2) =>
    let sessionHistory := Store.getSessionHistory st.history
    let excludeIds := (sessionHistory.take EXCLUSION_WINDOW).map
      (fun e => e.product_id)
    let candidates := sample (getFilteredCandidates catalog excludeIds rules f)
    if candidates = [] then (none, { st with cache := c2 })
    else
      match selectRecommendation orderScored rnd candidates with
      | none => (none, { st with cache := c2 })
      | some sel =>
        let resp : RecResponse := ⟨sel.product_id, sessionHistory.length⟩
        { fst := some resp,
          snd := { history := Store.recordShownProduct st.history sel.product_id now,
                   cache := cacheSet c2 sessionId f 1 resp 300000 now } }

end Rec

theorem Rec.selectRecommendation_mem
    (orderScored : List Rec.Candidate → List Rec.Candidate) (rnd : ℕ)
    (scored : List Rec.Candidate) (sel : Rec.Candidate)
    (h : Rec.selectRecommendation orderScored rnd scored = some sel) :
    sel ∈ orderScored scored := by
  unfold Rec.selectRecommendation at h
  dsimp only at h
  exact List.mem_of_mem_take (List.getElem?_mem h)

/-- C3: the cache key is built from (session, filters, count) ONLY - no
history length enters generateKey - so a stored entry whose ttl has not
expired is served on any later call with the same session, filters and
count, whatever the session history has become in the meantime, and the
served call does not touch the history. -/
theorem Rec.C3_cache_key_ignores_history (c : Rec.RecommendationCache)
    (sid : String) (f : Rec.Filters) (count now : ℕ) (item : Rec.CacheItem)
    (hl : c.cache.lookup (sid, f, count) = some item)
    (httl : now - item.timestamp ≤ item.ttl) :
    (Rec.cacheGet c sid f count now).1 = some item.dataBody ∧
    (count = 1 → ∀ (catalog : List Rec.Candidate)
      (sample orderScored : List Rec.Candidate → List Rec.Candidate)
      (rnd : ℕ) (rules : Rec.DiversityRules)
      (hist : List Store.HistoryEntry),
      (Rec.recommendStep catalog sample orderScored rnd sid f rules
        ⟨hist, c⟩ now).1 = some item.dataBody ∧
      (Rec.recommendStep catalog sample orderScored rnd sid f rules
        ⟨hist, c⟩ now).2.history = hist) := by
  have h1 : (Rec.cacheGet c sid f count now).1 = some item.dataBody := by
    unfold Rec.cacheGet
    rw [hl]
    dsimp only
    rw [if_neg (by omega)]
  refine ⟨h1, fun hc catalog sample orderScored rnd rules hist => ?_⟩
  subst hc
  unfold Rec.recommendStep
  rw [show (⟨hist, c⟩ : Rec.RecState).cache = c from rfl]
  rcases hq : Rec.cacheGet c sid f 1 now with ⟨o, c2⟩
  rw [hq] at h1
  dsimp only at h1
  subst h1
  exact ⟨rfl, rfl⟩

/-- C4: on the CACHE-MISS path, for oracles ($sample, scoring order) that
only return elements of their input, the product returned by the
recommend route is never among the product_ids of the 20 most recently
shown session-history entries at the time of the call; the cache-hit path
checked before any of this carries no such guarantee. -/
theorem Rec.C4_exclusion_on_cache_miss (catalog : List Rec.Candidate)
    (sample orderScored : List Rec.Candidate → List Rec.Candidate)
    (rnd : ℕ) (sid : String) (f : Rec.Filters) (rules : Rec.DiversityRules)
    (st : Rec.RecState) (now : ℕ) (resp : Rec.RecResponse)
    (hsample : ∀ (l : List Rec.Candidate) (c : Rec.Candidate),
      c ∈ sample l → c ∈ l)
    (horder : ∀ (l : List Rec.Candidate) (c : Rec.Candidate),
      c ∈ orderScored l → c ∈ l)
    (hmiss : (Rec.cacheGet st.cache sid f 1 now).1 = none)
    (hresp : (Rec.recommendStep catalog sample orderScored rnd sid f rules
      st now).1 = some resp) :
    resp.productId ∉
      ((Store.getSessionHistory st.history).take Rec.EXCLUSION_WINDOW).map
        (fun e => e.product_id) := by
  unfold Rec.recommendStep at hresp
  rcases hq : Rec.cacheGet st.cache sid f 1 now with ⟨o, c2⟩
  rw [hq] at hresp hmiss
  dsimp only at hmiss
  subst hmiss
  dsimp only at hresp
  split at hresp
  · simp at hresp
  · split at hresp
    · simp at hresp
    · rename_i sel hsel
      dsimp only at hresp
      rw [Option.some_inj] at hresp
      subst hresp
      have h1 := Rec.selectRecommendation_mem _ _ _ _ hsel
      have h2 := hsample _ _ (horder _ _ h1)
      unfold Rec.getFilteredCandidates at h2
      obtain ⟨hmemcat, hpred⟩ := List.mem_filter.mp h2
      simp only [Bool.and_eq_true, decide_eq_true_eq] at hpred
      exact hpred.1.1.1.1

def recCatalog : List Rec.Candidate := [⟨"p20", "Tops", "Blue", "BrandA", 50⟩]

def recFilters : Rec.Filters := ⟨0, 10000, none, 100⟩

def recRules : Rec.DiversityRules := ⟨false, false, false, none, none, none⟩

def recEmptyCache : Rec.RecommendationCache := ⟨[], 0, 0, 1000, 300000⟩

def recRun1 : Option Rec.RecResponse × Rec.RecState :=
  Rec.recommendStep recCatalog (fun l => l) (fun l => l) 0 "s1" recFilters
    recRules ⟨[], recEmptyCache⟩ 1000

def recRun2 : Option Rec.RecResponse × Rec.RecState :=
  Rec.recommendStep recCatalog (fun l => l) (fun l => l) 0 "s1" recFilters
    recRules recRun1.2 2000

/-- C3 (counterexample): the first call answers with products_seen = 0 and
caches it; the second call, after the history has grown to length 1, is
still served from the cache (same session, filters and count - the key
holds no history length), returning the stale products_seen = 0 response
and recording nothing. -/
theorem C3_counterexample :
    recRun1.1 = some ⟨"p20", 0⟩ ∧
    recRun2.1 = some ⟨"p20", 0⟩ ∧
    recRun2.2.history = recRun1.2.history ∧
    recRun1.2.history.length = 1 ∧
    (⟨"p20", 0⟩ : Rec.RecResponse).productsSeen ≠ recRun1.2.history.length := by
  decide

def recStoredItem : Rec.CacheItem := ⟨⟨"p20", 0⟩, 1000, 300000, 0, "s1"⟩

def recStoredCache : Rec.RecommendationCache :=
  ⟨[(("s1", recFilters, 1), recStoredItem)], 0, 0, 1000, 300000⟩

/-- C3 (witness): a stored entry for ("s1", filters, 1) from t = 1000 is
served at t = 2000 even though the current history is nonempty, and the
history is left untouched. -/
theorem C3_witness :
    recStoredCache.cache.lookup ("s1", recFilters, 1) = some recStoredItem ∧
    (2000 : ℕ) - recStoredItem.timestamp ≤ recStoredItem.ttl ∧
    (Rec.cacheGet recStoredCache "s1" recFilters 1 2000).1 = some ⟨"p20", 0⟩ ∧
    (Rec.recommendStep recCatalog (fun l => l) (fun l => l) 0 "s1" recFilters
      recRules ⟨[⟨"x", 1500, none, none⟩], recStoredCache⟩ 2000).1 =
        some ⟨"p20", 0⟩ ∧
    (Rec.recommendStep recCatalog (fun l => l) (fun l => l) 0 "s1" recFilters
      recRules ⟨[⟨"x", 1500, none, none⟩], recStoredCache⟩ 2000).2.history =
        [⟨"x", 1500, none, none⟩] :=
  ⟨by decide, by decide,
    (Rec.C3_cache_key_ignores_history recStoredCache "s1" recFilters 1 2000
      recStoredItem (by decide) (by decide)).1,
    ((Rec.C3_cache_key_ignores_history recStoredCache "s1" recFilters 1 2000
      recStoredItem (by decide) (by decide)).2 rfl recCatalog (fun l => l)
      (fun l => l) 0 recRules [⟨"x", 1500, none, none⟩]).1,
    ((Rec.C3_cache_key_ignores_history recStoredCache "s1" recFilters 1 2000
      recStoredItem (by decide) (by decide)).2 rfl recCatalog (fun l => l)
      (fun l => l) 0 recRules [⟨"x", 1500, none, none⟩]).2⟩

def recHist19 : List Store.HistoryEntry :=
  List.replicate 19 ⟨"q", 0, none, none⟩

def recRun3 : Option Rec.RecResponse × Rec.RecState :=
  Rec.recommendStep recCatalog (fun l => l) (fun l => l) 0 "s1" recFilters
    recRules ⟨recHist19, recEmptyCache⟩ 1000

def recRun4 : Option Rec.RecResponse × Rec.RecState :=
  Rec.recommendStep recCatalog (fun l => l) (fun l => l) 0 "s1" recFilters
    recRules recRun3.2 2000

/-- C4 (counterexample): after the first call the history holds 20
entries ending in p20; the second call, history length 20 ≥ 20, is served
from the cache and returns p20, which IS among the 20 most recently shown
products - the exclusion invariant fails on the cache-hit path. -/
theorem C4_counterexample :
    recRun3.1 = some ⟨"p20", 19⟩ ∧
    20 ≤ (Store.getSessionHistory recRun3.2.history).length ∧
    recRun4.1 = some ⟨"p20", 19⟩ ∧
    "p20" ∈ ((Store.getSessionHistory recRun3.2.history).take
      Rec.EXCLUSION_WINDOW).map (fun e => e.product_id) := by
  decide

/-- C4 (witness): the first call of the counterexample scenario is a
cache miss, and its returned product p20 is indeed outside the exclusion
window of the 19-entry history. -/
theorem C4_witness :
    (Rec.cacheGet recEmptyCache "s1" recFilters 1 1000).1 = none ∧
    (Rec.recommendStep recCatalog (fun l => l) (fun l => l) 0 "s1" recFilters
      recRules ⟨recHist19, recEmptyCache⟩ 1000).1 = some ⟨"p20", 19⟩ ∧
    "p20" ∉ ((Store.getSessionHistory recHist19).take
      Rec.EXCLUSION_WINDOW).map (fun e => e.product_id) :=
  ⟨by decide, by decide,
    Rec.C4_exclusion_on_cache_miss recCatalog (fun l => l) (fun l => l) 0
      "s1" recFilters recRules ⟨recHist19, recEmptyCache⟩ 1000 ⟨"p20", 19⟩
      (fun l c h => h) (fun l c h => h) (by decide) (by decide)⟩
